import Mathlib

/-!
Shallow embedding of the orchestration core of the square-chrome-extension
repository: the enhanced workflow runner (`AgentCoordinatorEnhanced.executeEnhancedWorkflow`),
the bulk batch executor (`BulkOperationManager` / `BulkOperation`), and the
agent factory cache (`AgentFactory`).  Agent operations are external
collaborators and every call settles as an `ItemOutcome`: fulfilled with an
`AgentResult`, or rejected with an error whose message is recorded.
Rejection is reachable on the main path: the coordinator dispatches method
names that the shipped enhanced instances do not all define (e.g.
`SquareSEOAgentEnhanced` defines none of the four methods
`executeSEOOperation` calls, so those calls reject with a TypeError), and
`executeEnhancedWorkflow` handles a rejected dispatch in its catch branch
while `BulkOperation.processBatch` absorbs rejections via
`Promise.allSettled`.  Machine times (`Date.now()`) are irrelevant to the
verified claims and are fixed to `0`.
-/

/-- Association-list lookup with JS `Map.get` semantics (first match;
`none` models `undefined`). -/
def mlookup {β : Type} : List (String × β) → String → Option β
  | [], _ => none
  | (k, v) :: rest, key => if k = key then some v else mlookup rest key

/-- Association-list update with JS `Map.set` semantics: replace in place
when the key is present, append otherwise (insertion order preserved). -/
def mset {β : Type} (key : String) (v : β) : List (String × β) → List (String × β)
  | [] => [(key, v)]
  | (k, w) :: rest => if k = key then (key, v) :: rest else (k, w) :: mset key v rest

/-- AgentResult shape from `src/agents/types` (`success`, optional `message`,
`error`, `data`); the `data` payload is abstracted to an arbitrary type `δ`
(`some x` models the object carried in `data`, e.g. `{ item: x }` for the
bulk executor's synthesized failures). -/
structure AgentResult (δ : Type) where
  success : Bool
  message : Option String := none
  error : Option String := none
  data : Option δ := none
deriving DecidableEq, Repr

/-- Step shape of `executeEnhancedWorkflow`'s `workflow.steps` entries:
`agentType` is the inline union `seo | navigation | catalog`. -/
inductive StepAgentType where
  | seo
  | navigation
  | catalog
deriving DecidableEq, Repr

/-- Workflow step: `{agentType, operation, data, dependsOn?, critical?}`;
`critical := false` models the falsy `undefined`. -/
structure WStep (δ : Type) where
  agentType : StepAgentType
  operation : String
  data : δ
  dependsOn : Option (List String) := none
  critical : Bool := false
deriving DecidableEq, Repr

/-- Settled outcome of one asynchronous agent call (a workflow step's
dispatched method or a bulk run's `processItem` promise): fulfilled with an
`AgentResult`, or rejected with an error whose message is recorded. -/
inductive ItemOutcome (ι : Type) where
  | fulfilled : AgentResult ι → ItemOutcome ι
  | rejected : String → ItemOutcome ι
deriving DecidableEq, Repr

/-- Method calls `executeSEOOperation` issues on the installed seo
instance.  Each call settles as an `ItemOutcome`: the shipped
`SquareSEOAgentEnhanced` defines none of these four methods (its surface
is `handleSEOUpdate`/`executeTask`), so on it every call rejects with a
TypeError, while `MockSEOAgent` defines all four and resolves. -/
structure SeoAgent (δ : Type) where
  optimizeSEO : δ → ItemOutcome δ
  validateSEOFields : δ → ItemOutcome δ
  bulkUpdateSEO : δ → ItemOutcome δ
  extractSEOData : δ → ItemOutcome δ

/-- Method calls `executeNavigationOperation` issues on the installed
navigation instance.  `SquareNavigationAgentEnhanced` defines
`performSearch` (catching internally) and a private `extractSearchResults`
helper but no `navigateToPage` or `validatePageLoad`, so some calls reject
on it; `MockNavigationAgent` defines all four and resolves. -/
structure NavAgent (δ : Type) where
  navigateToPage : δ → ItemOutcome δ
  performSearch : δ → ItemOutcome δ
  validatePageLoad : δ → ItemOutcome δ
  extractSearchResults : δ → ItemOutcome δ

/-- Method calls `executeCatalogOperation` issues on the installed catalog
instance.  `SquareCatalogAgentEnhanced` defines all four methods, each
wrapping its body in try/catch and resolving with an `AgentResult`, as
does `MockCatalogAgent`. -/
structure CatAgent (δ : Type) where
  synchronizeCatalog : δ → ItemOutcome δ
  updateInventory : δ → ItemOutcome δ
  updatePricing : δ → ItemOutcome δ
  extractCatalogData : δ → ItemOutcome δ

/-- Coordinator's `agents` map (`this.agents.get('seo')` etc.); `none`
models a missing entry. -/
structure CoordAgents (δ : Type) where
  seo : Option (SeoAgent δ)
  navigation : Option (NavAgent δ)
  catalog : Option (CatAgent δ)

/-- AgentCoordinatorEnhanced.executeSEOOperation: missing agent resolves a
failure fast, known operation names call the agent method (whose promise
may reject), anything else resolves an unknown-operation failure. -/
def executeSEOOperation {δ : Type} (ag : CoordAgents δ) (t : String) (data : δ) :
    ItemOutcome δ :=
  match ag.seo with
  | none =>
    .fulfilled { success := false
                , error := some "Enhanced SEO agent not available for current page" }
  | some a =>
    match t with
    | "optimize" => a.optimizeSEO data
    | "validate" => a.validateSEOFields data
    | "bulk-update" => a.bulkUpdateSEO data
    | "extract" => a.extractSEOData data
    | _ => .fulfilled { success := false, error := some ("Unknown SEO operation: " ++ t) }

/-- AgentCoordinatorEnhanced.executeNavigationOperation. -/
def executeNavigationOperation {δ : Type} (ag : CoordAgents δ) (t : String) (data : δ) :
    ItemOutcome δ :=
  match ag.navigation with
  | none =>
    .fulfilled { success := false, error := some "Enhanced Navigation agent not available" }
  | some a =>
    match t with
    | "navigate" => a.navigateToPage data
    | "search" => a.performSearch data
    | "validate" => a.validatePageLoad data
    | "extract-results" => a.extractSearchResults data
    | _ =>
      .fulfilled { success := false, error := some ("Unknown navigation operation: " ++ t) }

/-- AgentCoordinatorEnhanced.executeCatalogOperation. -/
def executeCatalogOperation {δ : Type} (ag : CoordAgents δ) (t : String) (data : δ) :
    ItemOutcome δ :=
  match ag.catalog with
  | none =>
    .fulfilled { success := false, error := some "Enhanced Catalog agent not available" }
  | some a =>
    match t with
    | "sync" => a.synchronizeCatalog data
    | "inventory" => a.updateInventory data
    | "pricing" => a.updatePricing data
    | "extract" => a.extractCatalogData data
    | _ =>
      .fulfilled { success := false, error := some ("Unknown catalog operation: " ++ t) }

/-- Step dispatch: the `switch (step.agentType)` of `executeEnhancedWorkflow`
(the TS union type makes the `default` branch unreachable); the awaited
call settles fulfilled or rejected. -/
def dispatchStep {δ : Type} (ag : CoordAgents δ) (s : WStep δ) : ItemOutcome δ :=
  match s.agentType with
  | .seo => executeSEOOperation ag s.operation s.data
  | .navigation => executeNavigationOperation ag s.operation s.data
  | .catalog => executeCatalogOperation ag s.operation s.data

/-- Result of a fulfilled dispatch (`none` when the call rejected). -/
def fulfilledResult {δ : Type} (oc : ItemOutcome δ) : Option (AgentResult δ) :=
  match oc with
  | .fulfilled r => some r
  | .rejected _ => none

/-- Dependency check of `executeEnhancedWorkflow`:
`step.dependsOn.every(dep => stepResults.has(dep) && stepResults.get(dep)?.success)`. -/
def depsMet {δ : Type} (stepResults : List (String × AgentResult δ)) (deps : List String) :
    Bool :=
  deps.all fun dep =>
    match mlookup stepResults dep with
    | some r => r.success
    | none => false

/-- Failed result recorded for a dependency-unmet step. -/
def depUnmetResult {δ : Type} (s : WStep δ) : AgentResult δ :=
  { success := false
  , error := some ("Dependencies not met for step: " ++ s.operation)
  , data := some s.data }

/-- Observable outcome of the step loop: the `results` array, the
`stepResults` map, the list of operations that were actually dispatched to
an agent (in dispatch order), and — when a dispatched call rejected — the
thrown error's message (`thrown = some msg`), which aborts the loop before
any result is recorded for the throwing step. -/
structure RunAcc (δ : Type) where
  results : List (AgentResult δ)
  stepResults : List (String × AgentResult δ)
  dispatched : List String
  thrown : Option String
deriving DecidableEq, Repr

/-- Step loop of `executeEnhancedWorkflow`: dependency gating, dispatch,
recording under the step's `operation` name, the two `break` points
(critical dependency-unmet step, critical dispatched failure), and the
abort when an awaited dispatch rejects (the exception propagates to the
enclosing try/catch before `results.push`/`stepResults.set` run). -/
def runSteps {δ : Type} (ag : CoordAgents δ)
    (stepResults : List (String × AgentResult δ)) :
    List (WStep δ) → RunAcc δ
  | [] => ⟨[], stepResults, [], none⟩
  | s :: rest =>
    let gate :=
      match s.dependsOn with
      | some deps => depsMet stepResults deps
      | none => true
    if gate then
      match dispatchStep ag s with
      | .rejected msg => ⟨[], stepResults, [s.operation], some msg⟩
      | .fulfilled result =>
        let sr2 := mset s.operation result stepResults
        if !result.success && s.critical then
          ⟨[result], sr2, [s.operation], none⟩
        else
          let tail := runSteps ag sr2 rest
          ⟨result :: tail.results, tail.stepResults, s.operation :: tail.dispatched,
            tail.thrown⟩
    else
      let failedResult := depUnmetResult s
      let sr2 := mset s.operation failedResult stepResults
      if s.critical then
        ⟨[failedResult], sr2, [], none⟩
      else
        let tail := runSteps ag sr2 rest
        ⟨failedResult :: tail.results, tail.stepResults, tail.dispatched, tail.thrown⟩

/-- Return shape of `executeEnhancedWorkflow`. -/
structure WorkflowOutput (δ : Type) where
  success : Bool
  results : List (AgentResult δ)
  message : String
deriving DecidableEq, Repr

/-- AgentCoordinatorEnhanced.executeEnhancedWorkflow: runs the step loop
and reports `success := successCount > 0` with the
`"<successCount>/<totalCount> steps successful"` message; when a dispatch
threw, the catch branch instead returns `success := false` with the
partial results and the failure message. -/
def executeEnhancedWorkflow {δ : Type} (ag : CoordAgents δ) (name : String)
    (steps : List (WStep δ)) : WorkflowOutput δ :=
  let acc := runSteps ag [] steps
  match acc.thrown with
  | some msg =>
    { success := false
    , results := acc.results
    , message := "Enhanced workflow \x27" ++ name ++ "\x27 failed: " ++ msg }
  | none =>
    let successCount := (acc.results.filter fun r => r.success).length
    let totalCount := acc.results.length
    { success := decide (0 < successCount)
    , results := acc.results
    , message := "Enhanced workflow \x27" ++ name ++ "\x27 completed: " ++
        toString successCount ++ "/" ++ toString totalCount ++ " steps successful" }

/-- Dispatch trace of a full workflow run (used to state which steps were
ever dispatched to an agent). -/
def workflowDispatched {δ : Type} (ag : CoordAgents δ) (steps : List (WStep δ)) :
    List String :=
  (runSteps ag [] steps).dispatched

/-! ### Bulk operation executor (`src/agents/bulk/BulkOperationManager.ts`) -/

/-- Run states of `BulkOperationStatus.status`. -/
inductive RunState where
  | pending
  | running
  | completed
  | failed
  | cancelled
deriving DecidableEq, Repr

/-- BulkOperationStatus record (times fixed to 0). -/
structure BulkOperationStatus where
  id : String
  type : String
  totalItems : Nat
  processedItems : Nat
  successCount : Nat
  failureCount : Nat
  status : RunState
  startTime : Nat := 0
  endTime : Option Nat := none
deriving DecidableEq, Repr

/-- BulkOperation.isCompleted: `['completed', 'failed', 'cancelled'].includes(status)`. -/
def isCompleted (s : BulkOperationStatus) : Bool :=
  [RunState.completed, RunState.failed, RunState.cancelled].contains s.status

/-- Operation surface used by `BulkOperation.processItem` (any of the four
methods may reject, e.g. with a TypeError when the agent object lacks it). -/
structure BulkAgent (ι : Type) where
  handleSEOUpdate : ι → ItemOutcome ι
  synchronizeCatalog : ι → ItemOutcome ι
  updateInventory : ι → ItemOutcome ι
  updatePricing : ι → ItemOutcome ι

/-- BulkOperationConfig; `items` are abstracted to a type `ι`,
`onProgress?` is modelled by the flag `hasOnProgress` (snapshots handed to
the callback are recorded in the run's `progressLog`). -/
structure BulkOperationConfig (ι : Type) where
  type : String
  agentType : String
  items : List ι
  batchSize : Option Nat := none
  delayBetweenBatches : Option Nat := none
  hasOnProgress : Bool := true

/-- BulkOperation.processItem: missing agent rejects with
`Agent not found`, the four known bulk types dispatch to the agent, any
other type rejects with `Unknown bulk operation type` (the TS union makes
that branch unreachable for well-typed configs). -/
def processItem {ι : Type} (agents : String → Option (BulkAgent ι))
    (cfg : BulkOperationConfig ι) (item : ι) : ItemOutcome ι :=
  match agents cfg.agentType with
  | none => .rejected ("Agent not found: " ++ cfg.agentType)
  | some agent =>
    match cfg.type with
    | "seo-bulk-update" => agent.handleSEOUpdate item
    | "catalog-bulk-sync" => agent.synchronizeCatalog item
    | "inventory-bulk-update" => agent.updateInventory item
    | "pricing-bulk-update" => agent.updatePricing item
    | _ => .rejected ("Unknown bulk operation type: " ++ cfg.type)

/-- Mutable state of one `BulkOperation` run, plus observation logs:
`progressLog` records every status snapshot passed to `onProgress`,
`dispatchLog` records each batch at the moment its items are dispatched,
and `startLog` records `processedItems` at each batch dispatch. -/
structure BulkRunState (ι : Type) where
  status : BulkOperationStatus
  results : List (AgentResult ι)
  progressLog : List BulkOperationStatus
  dispatchLog : List (List ι)
  startLog : List Nat
deriving DecidableEq, Repr

/-- Per-item body of the `results.forEach` in `BulkOperation.processBatch`:
increment `processedItems`, then either count a fulfilled success and push
its result, or count a failure and push a synthesized
`{success: false, error, data: {item}}` result (`String(undefined)` for a
missing error field), then invoke `onProgress` with a status snapshot. -/
def settleItem {ι : Type} (cfg : BulkOperationConfig ι) (item : ι)
    (oc : ItemOutcome ι) (st : BulkRunState ι) : BulkRunState ι :=
  let status1 := { st.status with processedItems := st.status.processedItems + 1 }
  let step :=
    match oc with
    | .fulfilled r =>
      if r.success then
        ({ status1 with successCount := status1.successCount + 1 }, r)
      else
        ({ status1 with failureCount := status1.failureCount + 1 },
         ({ success := false
          , error := some (match r.error with | some e => e | none => "undefined")
          , data := some item } : AgentResult ι))
    | .rejected msg =>
      ({ status1 with failureCount := status1.failureCount + 1 },
       ({ success := false, error := some msg, data := some item } : AgentResult ι))
  { st with
    status := step.1
    results := st.results ++ [step.2]
    progressLog := if cfg.hasOnProgress then st.progressLog ++ [step.1] else st.progressLog }

/-- Settle loop of `processBatch`: each batch item's outcome is folded into
the run state in batch order. -/
def settleFold {ι : Type} (agents : String → Option (BulkAgent ι))
    (cfg : BulkOperationConfig ι) (batch : List ι) (st : BulkRunState ι) :
    BulkRunState ι :=
  batch.foldl (fun acc item => settleItem cfg item (processItem agents cfg item) acc) st

/-- BulkOperation.processBatch: dispatch all batch items concurrently
(recorded in `dispatchLog`/`startLog`), join with `Promise.allSettled`, and
settle each outcome in order. -/
def processBatch {ι : Type} (agents : String → Option (BulkAgent ι))
    (cfg : BulkOperationConfig ι) (batch : List ι) (st : BulkRunState ι) :
    BulkRunState ι :=
  settleFold agents cfg batch
    { st with
      dispatchLog := st.dispatchLog ++ [batch]
      startLog := st.startLog ++ [st.status.processedItems] }

/-- Result record appended to `results` for one settled item outcome. -/
def settleResult {ι : Type} (item : ι) (oc : ItemOutcome ι) : AgentResult ι :=
  match oc with
  | .fulfilled r =>
    if r.success then r
    else
      { success := false
      , error := some (match r.error with | some e => e | none => "undefined")
      , data := some item }
  | .rejected msg => { success := false, error := some msg, data := some item }

/-- Result record a bulk run appends for a given item. -/
def itemResult {ι : Type} (agents : String → Option (BulkAgent ι))
    (cfg : BulkOperationConfig ι) (item : ι) : AgentResult ι :=
  settleResult item (processItem agents cfg item)

/-- Value of `processedItems` observed at the dispatch of each successive
batch, starting from `p` settled items. -/
def startOffsets {ι : Type} : Nat → List (List ι) → List Nat
  | _, [] => []
  | p, c :: cs => p :: startOffsets (p + c.length) cs

/-- Effective batch size: `this.config.batchSize || 5` (absent or `0` are
falsy and fall back to the default 5). -/
def effectiveBatchSize {ι : Type} (cfg : BulkOperationConfig ι) : Nat :=
  match cfg.batchSize with
  | none => 5
  | some b => if b = 0 then 5 else b

/-- Batch partition of the `for (let i = 0; i < items.length; i += batchSize)`
loop, fuel-structured so that it computes by kernel reduction; `fuel` is
always instantiated with `l.length`, which suffices whenever `0 < b`. -/
def chunksFuel {ι : Type} (b : Nat) : Nat → List ι → List (List ι)
  | _, [] => []
  | 0, l => [l]
  | fuel + 1, x :: xs => (x :: xs).take b :: chunksFuel b fuel ((x :: xs).drop b)

/-- Contiguous batches `items.slice(i, i + batchSize)` in item order. -/
def chunkList {ι : Type} (b : Nat) (l : List ι) : List (List ι) :=
  chunksFuel b l.length l

/-- Cooperative cancellation schedule: `cancelAt = some c` means the
`this.cancelled` flag reads `true` from the `c`-th boundary check on
(boundary `j` is the check before batch `j`; the post-loop read after `m`
batches is boundary `m`).  `none` means `cancel()` is never called during
the run. -/
def cancelObserved (cancelAt : Option Nat) (j : Nat) : Bool :=
  match cancelAt with
  | some c => decide (c ≤ j)
  | none => false

/-- Post-loop epilogue of `BulkOperation.execute`:
`this.status.status = this.cancelled ? 'cancelled' : 'completed'` and
`endTime` assignment (the mid-loop `break` path assigns `cancelled` twice,
which collapses to the same state). -/
def finalizeRun {ι : Type} (cancelAt : Option Nat) (j : Nat) (st : BulkRunState ι) :
    BulkRunState ι :=
  { st with status := { st.status with
      status := if cancelObserved cancelAt j then .cancelled else .completed
      endTime := some 0 } }

/-- Batch loop of `BulkOperation.execute` over the partitioned batches:
check the cancellation flag before each batch, run the batch, and finish
with the epilogue (the inter-batch delay has no observable effect here). -/
def runBatches {ι : Type} (agents : String → Option (BulkAgent ι))
    (cfg : BulkOperationConfig ι) (cancelAt : Option Nat) :
    Nat → List (List ι) → BulkRunState ι → BulkRunState ι
  | j, [], st => finalizeRun cancelAt j st
  | j, batch :: rest, st =>
    if cancelObserved cancelAt j then finalizeRun cancelAt j st
    else runBatches agents cfg cancelAt (j + 1) rest (processBatch agents cfg batch st)

/-- Return shape of `BulkOperation.execute`. -/
structure BulkOperationResult (ι : Type) where
  success : Bool
  operationId : String
  totalItems : Nat
  successCount : Nat
  failureCount : Nat
  results : List (AgentResult ι)
  duration : Nat
deriving DecidableEq, Repr

/-- Observable artifacts of one bulk run: the returned result, the final
status record, and the observation logs. -/
structure BulkExec (ι : Type) where
  result : BulkOperationResult ι
  finalStatus : BulkOperationStatus
  progressLog : List BulkOperationStatus
  dispatchLog : List (List ι)
  startLog : List Nat
deriving DecidableEq, Repr

/-- Initial `BulkOperationStatus` built in the `BulkOperation` constructor. -/
def initialStatus {ι : Type} (id : String) (cfg : BulkOperationConfig ι) :
    BulkOperationStatus :=
  { id := id
  , type := cfg.type
  , totalItems := cfg.items.length
  , processedItems := 0
  , successCount := 0
  , failureCount := 0
  , status := .pending
  , startTime := 0
  , endTime := none }

/-- Run state at the top of `BulkOperation.execute`, after
`this.status.status = 'running'`. -/
def initialRunState {ι : Type} (id : String) (cfg : BulkOperationConfig ι) :
    BulkRunState ι :=
  { status := { initialStatus id cfg with status := .running }
  , results := []
  , progressLog := []
  , dispatchLog := []
  , startLog := [] }

/-- BulkOperation.execute: mark the run `running`, process the items in
batches of `batchSize || 5` with cooperative cancellation at batch
boundaries, and return `success := successCount > 0` with the final counts
and results. -/
def BulkOperation.execute {ι : Type} (id : String)
    (agents : String → Option (BulkAgent ι)) (cfg : BulkOperationConfig ι)
    (cancelAt : Option Nat) : BulkExec ι :=
  let b := effectiveBatchSize cfg
  let stF := runBatches agents cfg cancelAt 0 (chunkList b cfg.items) (initialRunState id cfg)
  { result :=
    { success := decide (0 < stF.status.successCount)
    , operationId := id
    , totalItems := stF.status.totalItems
    , successCount := stF.status.successCount
    , failureCount := stF.status.failureCount
    , results := stF.results
    , duration := 0 }
  , finalStatus := stF.status
  , progressLog := stF.progressLog
  , dispatchLog := stF.dispatchLog
  , startLog := stF.startLog }

/-- BulkOperationManager.cancelOperation return value: the id is looked up
in `activeOperations`; a present operation gets its `cancel()` flag set
(modelled by the `cancelAt` schedule of its run) and the call returns
`true`, an absent id returns `false`.  `executeBulkOperation` inserts a run
into `activeOperations` when it starts and deletes it in its `finally` as
soon as the run settles, so the map holds exactly the non-terminal runs. -/
def BulkOperationManager.cancelOperation (activeOperations : List (String × BulkOperationStatus))
    (operationId : String) : Bool :=
  (mlookup activeOperations operationId).isSome

/-- Contents of `activeOperations` given the statuses of every operation
ever started: settled (terminal) runs have been deleted by the `finally`
of `executeBulkOperation`. -/
def activeAfterSettle (allOps : List (String × BulkOperationStatus)) :
    List (String × BulkOperationStatus) :=
  allOps.filter fun p => !(isCompleted p.2)

/-! ### Agent factory (`AgentFactory`) -/

/-- Page types of `PageContext.pageType`. -/
inductive PageType where
  | dashboard
  | itemsLibrary
  | itemDetail
  | itemEdit
  | inventory
  | seoSettings
  | unknown
deriving DecidableEq, Repr, Fintype

/-- String form of each page type as it appears in cache keys. -/
def PageType.str : PageType → String
  | .dashboard => "dashboard"
  | .itemsLibrary => "items-library"
  | .itemDetail => "item-detail"
  | .itemEdit => "item-edit"
  | .inventory => "inventory"
  | .seoSettings => "seo-settings"
  | .unknown => "unknown"

/-- AgentType union exported by the factory. -/
inductive AgentType where
  | seo
  | navigation
  | catalog
  | mockSeo
  | mockNavigation
  | mockCatalog
deriving DecidableEq, Repr, Fintype

/-- String form of each agent type. -/
def AgentType.str : AgentType → String
  | .seo => "seo"
  | .navigation => "navigation"
  | .catalog => "catalog"
  | .mockSeo => "mock-seo"
  | .mockNavigation => "mock-navigation"
  | .mockCatalog => "mock-catalog"

/-- Check that `pat` starts the character list `l`. -/
def startsWithL (pat l : List Char) : Bool :=
  match pat, l with
  | [], _ => true
  | _ :: _, [] => false
  | p :: ps, c :: cs => p = c && startsWithL ps cs

/-- Check that `pat` occurs somewhere inside `l`. -/
def containsL (pat l : List Char) : Bool :=
  match l with
  | [] => match pat with | [] => true | _ :: _ => false
  | _ :: cs => startsWithL pat l || containsL pat cs

/-- JS `String.prototype.includes`: substring containment. -/
def strIncludes (s pat : String) : Bool :=
  containsL pat.toList s.toList

/-- Cached `AgentInstance` shape; the opaque `instance` handle is identified
by the allocation counter value `instId`, and `hasDestroy` models the
`typeof instance.destroy === 'function'` probe (true for every class
reachable here: `DOMAgent` and `MockAgent` declare `destroy`, and the
catalog agent's base `SquareDOMUtils` is modelled from the spec, which
requires cached instances to be explicitly released via `destroy`). -/
structure AgentInstance where
  type : AgentType
  enhanced : Bool
  instId : Nat
  capabilities : List String
  ready : Bool
  hasDestroy : Bool
deriving DecidableEq, Repr

/-- AgentFactory state: the `agents` cache keyed by `` `${type}-${pageType}` ``,
the current context's page type, whether `window.location.hostname`
includes `squareup.com`, the instance allocation counter, and the trace of
instance ids whose `destroy()` has been invoked (in invocation order). -/
structure FactoryState where
  agents : List (String × AgentInstance)
  pageType : PageType
  hostSquare : Bool
  nextId : Nat
  destroyed : List Nat
deriving DecidableEq, Repr

/-- AgentFactory.isValidForSEO. -/
def isValidForSEO (pt : PageType) : Bool :=
  [PageType.itemDetail, PageType.itemEdit, PageType.itemsLibrary].contains pt

/-- AgentFactory.isValidForNavigation: every Square page except `unknown`,
and the hostname must include `squareup.com`. -/
def isValidForNavigation (hostSquare : Bool) (pt : PageType) : Bool :=
  !(pt == PageType.unknown) && hostSquare

/-- AgentFactory.isValidForCatalog. -/
def isValidForCatalog (pt : PageType) : Bool :=
  [PageType.itemsLibrary, PageType.itemDetail, PageType.itemEdit,
   PageType.inventory].contains pt

/-- Capability list attached to a freshly created seo agent instance. -/
def seoCaps : List String :=
  ["Real DOM SEO optimization", "Form validation and submission",
   "Content generation and optimization", "Bulk SEO operations",
   "Screenshot capture for debugging"]

/-- Capability list attached to a freshly created navigation agent instance. -/
def navCaps : List String :=
  ["Advanced page navigation", "URL management and validation",
   "Search functionality with filters", "Page load validation",
   "SPA routing handling"]

/-- Capability list attached to a freshly created catalog agent instance. -/
def catCaps : List String :=
  ["Comprehensive catalog synchronization", "Inventory management and updates",
   "Bulk pricing operations", "Data extraction and validation",
   "Batch processing capabilities"]

/-- Allocate a fresh instance (the `new ...Agent(...)` expression),
advancing the allocation counter. -/
def mkInstance (st : FactoryState) (t : AgentType) (enhanced : Bool)
    (caps : List String) : AgentInstance × FactoryState :=
  ({ type := t, enhanced := enhanced, instId := st.nextId, capabilities := caps
   , ready := true, hasDestroy := true },
   { st with nextId := st.nextId + 1 })

/-- AgentFactory.createAgent: page-type validation per agent type (`none`
models the thrown error), mock types always construct via
`createMockAgents` (which registers all three mock kinds). -/
def createAgent (st : FactoryState) (t : AgentType) :
    Option (AgentInstance × FactoryState) :=
  match t with
  | .seo => if isValidForSEO st.pageType then some (mkInstance st .seo true seoCaps) else none
  | .navigation =>
    if isValidForNavigation st.hostSquare st.pageType then
      some (mkInstance st .navigation true navCaps)
    else none
  | .catalog =>
    if isValidForCatalog st.pageType then some (mkInstance st .catalog true catCaps) else none
  | .mockSeo => some (mkInstance st .mockSeo false ["Mock seo operations for testing"])
  | .mockNavigation =>
    some (mkInstance st .mockNavigation false ["Mock navigation operations for testing"])
  | .mockCatalog =>
    some (mkInstance st .mockCatalog false ["Mock catalog operations for testing"])

/-- Cache key `` `${type}-${this.context.page.pageType}` ``. -/
def cacheKey (t : AgentType) (pt : PageType) : String :=
  t.str ++ "-" ++ pt.str

/-- Fallback target `` `mock-${type}` `` for non-mock types (`none` for
types already starting with `mock-`). -/
def toMock : AgentType → Option AgentType
  | .seo => some .mockSeo
  | .navigation => some .mockNavigation
  | .catalog => some .mockCatalog
  | .mockSeo => none
  | .mockNavigation => none
  | .mockCatalog => none

/-- Cached-and-ready probe of `getAgent`: the cached instance when it is
present under the key and `ready`, `none` otherwise. -/
def cacheProbe (st : FactoryState) (t : AgentType) : Option AgentInstance :=
  match mlookup st.agents (cacheKey t st.pageType) with
  | some cached => if cached.ready then some cached else none
  | none => none

/-- AgentFactory.getAgent specialized to a mock type reached through the
fallback recursion (`forceRecreate` defaulted to `false`, and no further
fallback because the type already starts with `mock-`): cached-and-ready
hit returns the cached instance, otherwise create and cache. -/
def getAgentMock (st : FactoryState) (t : AgentType) :
    Option AgentInstance × FactoryState :=
  match cacheProbe st t with
  | some cached => (some cached, st)
  | none =>
    match createAgent st t with
    | some (inst, st2) =>
      (some inst, { st2 with agents := mset (cacheKey t st.pageType) inst st2.agents })
    | none => (none, st)

/-- AgentFactory.getAgent: return the cached instance when present and
ready (unless `forceRecreate`), otherwise try `createAgent` and cache the
result, otherwise fall back to the `mock-` counterpart. -/
def getAgent (st : FactoryState) (t : AgentType) (forceRecreate : Bool := false) :
    Option AgentInstance × FactoryState :=
  match (if forceRecreate then none else cacheProbe st t) with
  | some cached => (some cached, st)
  | none =>
    match createAgent st t with
    | some (inst, st2) =>
      (some inst, { st2 with agents := mset (cacheKey t st.pageType) inst st2.agents })
    | none =>
      match toMock t with
      | some mt => getAgentMock st mt
      | none => (none, st)

/-- AgentFactory.updateContext: adopt the new context, then walk the cache
and, for every entry whose key does not include the new page-type string,
invoke `destroy()` on its instance (when present) and delete the entry;
entries whose key includes the new page type are kept as they are. -/
def updateContext (st : FactoryState) (newPt : PageType) : FactoryState :=
  let pts := newPt.str
  { st with
    pageType := newPt
    agents := st.agents.filter fun p => strIncludes p.1 pts
    destroyed := st.destroyed ++
      (((st.agents.filter fun p => !(strIncludes p.1 pts)).filter
          fun p => p.2.hasDestroy).map fun p => p.2.instId) }

/-! ### Concrete test fixtures used by scenario theorems and witnesses -/

/-- Test agent set for concrete runs: the seo agent resolves a failure on
`optimize` and resolves success on everything else (no call rejects). -/
def agFailOpt : CoordAgents Unit :=
  { seo := some
      { optimizeSEO := fun _ => .fulfilled { success := false, error := some "boom" }
      , validateSEOFields := fun _ => .fulfilled { success := true }
      , bulkUpdateSEO := fun _ => .fulfilled { success := true }
      , extractSEOData := fun _ => .fulfilled { success := true } }
  , navigation := none
  , catalog := none }

/-- Model of the shipped enhanced agent set (as installed by
`initializeEnhancedAgents` on a catalog-capable page):
`SquareCatalogAgentEnhanced` defines its four dispatched methods, each
catching internally and resolving, while `SquareSEOAgentEnhanced` defines
none of the four methods `executeSEOOperation` calls, so those calls
reject with a TypeError. -/
def agShipped : CoordAgents Unit :=
  { seo := some
      { optimizeSEO := fun _ => .rejected "seoAgent.optimizeSEO is not a function"
      , validateSEOFields := fun _ =>
          .rejected "seoAgent.validateSEOFields is not a function"
      , bulkUpdateSEO := fun _ => .rejected "seoAgent.bulkUpdateSEO is not a function"
      , extractSEOData := fun _ => .rejected "seoAgent.extractSEOData is not a function" }
  , navigation := none
  , catalog := some
      { synchronizeCatalog := fun _ => .fulfilled { success := true }
      , updateInventory := fun _ => .fulfilled { success := true }
      , updatePricing := fun _ => .fulfilled { success := true }
      , extractCatalogData := fun _ => .fulfilled { success := true } } }

/-- Test bulk agents: `handleSEOUpdate` fails on item 3, rejects on item 7,
succeeds elsewhere. -/
def bagTest : String → Option (BulkAgent Nat) := fun a =>
  if a = "seo" then
    some
      { handleSEOUpdate := fun i =>
          if i = 3 then .fulfilled { success := false, error := some "bad3" }
          else if i = 7 then .rejected "boom7"
          else .fulfilled { success := true, data := some i }
      , synchronizeCatalog := fun _ => .fulfilled { success := true }
      , updateInventory := fun _ => .fulfilled { success := true }
      , updatePricing := fun _ => .fulfilled { success := true } }
  else none

/-- Test bulk config: 12 items at batch size 5. -/
def cfgTest : BulkOperationConfig Nat :=
  { type := "seo-bulk-update", agentType := "seo"
  , items := [0, 1, 2, 3, 4, 5, 6, 7, 8, 9, 10, 11], batchSize := some 5 }

/-- Test factory state: empty cache on the `item-detail` page. -/
def stTest : FactoryState :=
  { agents := [], pageType := .itemDetail, hostSquare := true, nextId := 0, destroyed := [] }

/-- Run-state invariant maintained by the bulk executor: status counts add
up to the processed count, `successCount` counts exactly the successful
recorded results, and every progress snapshot satisfies the count law with
the run's `totalItems` and a processed count bounded by the current one. -/
def runInv {ι : Type} (st : BulkRunState ι) : Prop :=
  st.status.successCount + st.status.failureCount = st.status.processedItems ∧
  st.status.successCount = (st.results.filter fun r => r.success).length ∧
  ∀ s ∈ st.progressLog,
    s.successCount + s.failureCount = s.processedItems ∧
    s.totalItems = st.status.totalItems ∧
    s.processedItems ≤ st.status.processedItems

/-- State left by a successful `createAgent`-and-cache step of `getAgent`. -/
def cachedState (st : FactoryState) (t : AgentType) (inst : AgentInstance) :
    FactoryState :=
  { st with
    nextId := st.nextId + 1
    agents := mset (cacheKey t st.pageType) inst st.agents }

/-! ### Workflow runner lemmas -/

lemma length_filter_pos_iff {α : Type} (l : List α) (p : α → Bool) :
    0 < (l.filter p).length ↔ ∃ a ∈ l, p a = true := by
  rw [List.length_pos_iff_exists_mem]
  constructor
  · rintro ⟨a, ha⟩
    rw [List.mem_filter] at ha
    exact ⟨a, ha.1, ha.2⟩
  · rintro ⟨a, ha, hp⟩
    exact ⟨a, List.mem_filter.mpr ⟨ha, hp⟩⟩

lemma depsMet_eq_false {δ : Type} (sr : List (String × AgentResult δ))
    (deps : List String)
    (hm : ∃ dep ∈ deps, ∀ r, mlookup sr dep = some r → r.success = false) :
    depsMet sr deps = false := by
  obtain ⟨dep, hmem, hr⟩ := hm
  rw [Bool.eq_false_iff]
  intro hall
  rw [depsMet, List.all_eq_true] at hall
  have hd := hall dep hmem
  cases hlk : mlookup sr dep with
  | none => rw [hlk] at hd; exact Bool.false_ne_true hd
  | some r =>
    rw [hlk] at hd
    simp only at hd
    rw [hr r hlk] at hd
    exact Bool.false_ne_true hd

/-- Step-loop length law for throw-free runs: the recorded results stop
exactly one past the first critical failure (dependency-unmet failures
included), and otherwise cover every step. -/
lemma runSteps_results_length {δ : Type} (ag : CoordAgents δ) :
    ∀ (steps : List (WStep δ)) (sr : List (String × AgentResult δ)),
    (runSteps ag sr steps).thrown = none →
    (runSteps ag sr steps).results.length =
      min steps.length
        ((((runSteps ag sr steps).results.zip steps).findIdx
            fun p => !p.1.success && p.2.critical) + 1) := by
  intro steps
  induction steps with
  | nil => intro sr _; simp [runSteps]
  | cons s rest ih =>
    intro sr hthr
    simp only [runSteps] at hthr ⊢
    cases hg : (match s.dependsOn with
        | some deps => depsMet sr deps
        | none => true) with
    | true =>
      cases hds : dispatchStep ag s with
      | rejected msg => simp [hg, hds] at hthr
      | fulfilled r =>
        cases hc : (!r.success && s.critical) with
        | true =>
          simp [hg, hds, hc, List.findIdx_cons]
        | false =>
          simp only [hg, hds] at hthr
          simp [hc] at hthr
          have h1 := ih (mset s.operation r sr) hthr
          simp [hg, hds, hc, List.findIdx_cons]
          omega
    | false =>
      cases hcrit : s.critical with
      | true =>
        simp [hg, hcrit, List.findIdx_cons, depUnmetResult]
      | false =>
        simp only [hg] at hthr
        simp [hcrit] at hthr
        have h1 := ih (mset s.operation (depUnmetResult s) sr) hthr
        have hs : (depUnmetResult s).success = false := rfl
        simp [hg, hcrit, List.findIdx_cons, hs]
        omega

/-- Step loop on dependency-free steps whose dispatches all resolve and
never fail critically: every step is dispatched, in order, and nothing is
thrown. -/
lemma runSteps_no_dep_no_critfail {δ : Type} (ag : CoordAgents δ) :
    ∀ (steps : List (WStep δ)) (sr : List (String × AgentResult δ)),
    (∀ s ∈ steps, s.dependsOn = none) →
    (∀ s ∈ steps, (fulfilledResult (dispatchStep ag s)).isSome = true) →
    (∀ s ∈ steps, ((fulfilledResult (dispatchStep ag s)).map fun r => r.success) =
      some false → s.critical = false) →
    ((runSteps ag sr steps).results.map some =
      steps.map fun s => fulfilledResult (dispatchStep ag s)) ∧
    (runSteps ag sr steps).thrown = none := by
  intro steps
  induction steps with
  | nil => intro sr _ _ _; simp [runSteps]
  | cons s rest ih =>
    intro sr hdep hnothrow hcrit
    have hd : s.dependsOn = none := hdep s (by simp)
    cases hds : dispatchStep ag s with
    | rejected msg =>
      exfalso
      have := hnothrow s (by simp)
      rw [hds] at this
      simp [fulfilledResult] at this
    | fulfilled r =>
      have hstop : (!r.success && s.critical) = false := by
        cases hsc : r.success with
        | true => simp
        | false =>
          have := hcrit s (by simp)
          rw [hds] at this
          simp [fulfilledResult, hsc] at this
          simp [this]
      obtain ⟨ihm, iht⟩ := ih (mset s.operation r sr)
        (fun t ht => hdep t (by simp [ht]))
        (fun t ht => hnothrow t (by simp [ht]))
        (fun t ht => hcrit t (by simp [ht]))
      simp only [runSteps, hd, hds, hstop]
      simp [ihm, iht, hds, fulfilledResult]

/-! ### Claim theorems for the workflow runner -/

/-- C2 counterexample: with the shipped enhanced agents, in the workflow
[seo "frobnicate" (resolves a failure, not critical), seo "optimize"
(throws), seo "validate"], the non-critical failure of step 0 is followed
by an aborting throw at step 1, so step 2 is never attempted even though
no critical step failed — "a non-critical step's failure halts none" is
false of the program. -/
theorem c2_counterexample :
    (executeEnhancedWorkflow agShipped "w"
        [⟨.seo, "frobnicate", (), none, false⟩,
         ⟨.seo, "optimize", (), none, false⟩,
         ⟨.seo, "validate", (), none, false⟩]).results.length = 1 ∧
    ((executeEnhancedWorkflow agShipped "w"
        [(⟨.seo, "frobnicate", (), none, false⟩ : WStep Unit),
         ⟨.seo, "optimize", (), none, false⟩,
         ⟨.seo, "validate", (), none, false⟩]).results.map fun r => r.success) =
      [false] ∧
    workflowDispatched agShipped
        [⟨.seo, "frobnicate", (), none, false⟩,
         ⟨.seo, "optimize", (), none, false⟩,
         ⟨.seo, "validate", (), none, false⟩] = ["frobnicate", "optimize"] := by
  decide

/-- C2 (amended): in `executeEnhancedWorkflow`, for every workflow in which
no dispatched step's operation throws, a failed critical step halts all
later step dispatch and a failed non-critical step halts none: the
recorded results run exactly one past the first critical failure, and
otherwise cover all steps (`min` law).  The [stepA(critical, fails),
stepB(dependsOn stepA)] scenario holds as stated: the returned results are
exactly the single failed result of stepA, stepB is never dispatched, and
overall success is false. -/
theorem c2_critical_failure_halts :
    (∀ (δ : Type) (ag : CoordAgents δ) (name : String) (steps : List (WStep δ)),
      (runSteps ag [] steps).thrown = none →
      (executeEnhancedWorkflow ag name steps).results.length =
        min steps.length
          ((((executeEnhancedWorkflow ag name steps).results.zip steps).findIdx
              fun p => !p.1.success && p.2.critical) + 1)) ∧
    (executeEnhancedWorkflow agFailOpt "w"
        [⟨.seo, "optimize", (), none, true⟩,
         ⟨.seo, "validate", (), some ["optimize"], false⟩]).results =
      [{ success := false, error := some "boom" }] ∧
    workflowDispatched agFailOpt
        [⟨.seo, "optimize", (), none, true⟩,
         ⟨.seo, "validate", (), some ["optimize"], false⟩] = ["optimize"] ∧
    (executeEnhancedWorkflow agFailOpt "w"
        [⟨.seo, "optimize", (), none, true⟩,
         ⟨.seo, "validate", (), some ["optimize"], false⟩]).success = false := by
  refine ⟨?_, by decide, by decide, by decide⟩
  intro δ ag name steps hthr
  have hres : (executeEnhancedWorkflow ag name steps).results =
      (runSteps ag [] steps).results := by
    simp [executeEnhancedWorkflow, hthr]
  rw [hres]
  exact runSteps_results_length ag steps [] hthr

/-- Witness for the amended C2: the throw-free two-step scenario satisfies
the `min` length law at its concrete input. -/
theorem c2_critical_failure_halts_witness :
    (executeEnhancedWorkflow agFailOpt "w"
        [(⟨.seo, "optimize", (), none, true⟩ : WStep Unit),
         ⟨.seo, "validate", (), some ["optimize"], false⟩]).results.length =
      min ([(⟨.seo, "optimize", (), none, true⟩ : WStep Unit),
            ⟨.seo, "validate", (), some ["optimize"], false⟩]).length
        ((((executeEnhancedWorkflow agFailOpt "w"
            [(⟨.seo, "optimize", (), none, true⟩ : WStep Unit),
             ⟨.seo, "validate", (), some ["optimize"], false⟩]).results.zip
            [(⟨.seo, "optimize", (), none, true⟩ : WStep Unit),
             ⟨.seo, "validate", (), some ["optimize"], false⟩]).findIdx
            fun p => !p.1.success && p.2.critical) + 1) :=
  c2_critical_failure_halts.1 Unit agFailOpt "w"
    [⟨.seo, "optimize", (), none, true⟩,
     ⟨.seo, "validate", (), some ["optimize"], false⟩] (by decide)

/-- C3: a step whose declared dependencies include one with no recorded
result or a failed recorded result is never dispatched; a dependency-unmet
failure is recorded for it under its operation name, and execution stops
immediately when the step is critical, or proceeds to the next step when it
is not. -/
theorem c3_dependency_gating {δ : Type} (ag : CoordAgents δ) (s : WStep δ)
    (rest : List (WStep δ)) (sr : List (String × AgentResult δ))
    (deps : List String) (hd : s.dependsOn = some deps)
    (hm : ∃ dep ∈ deps, ∀ r, mlookup sr dep = some r → r.success = false) :
    (s.critical = true →
      runSteps ag sr (s :: rest) =
        ⟨[depUnmetResult s], mset s.operation (depUnmetResult s) sr, [], none⟩) ∧
    (s.critical = false →
      runSteps ag sr (s :: rest) =
        { results := depUnmetResult s ::
            (runSteps ag (mset s.operation (depUnmetResult s) sr) rest).results
        , stepResults :=
            (runSteps ag (mset s.operation (depUnmetResult s) sr) rest).stepResults
        , dispatched :=
            (runSteps ag (mset s.operation (depUnmetResult s) sr) rest).dispatched
        , thrown :=
            (runSteps ag (mset s.operation (depUnmetResult s) sr) rest).thrown }) := by
  have hgate := depsMet_eq_false sr deps hm
  constructor
  · intro hc
    simp [runSteps, hd, hgate, hc]
  · intro hc
    simp [runSteps, hd, hgate, hc]

/-- Witness for C3 at a concrete input: a critical step depending on the
unrecorded operation `optimize` stops the workflow with one
dependency-unmet result, dispatches nothing and throws nothing. -/
theorem c3_dependency_gating_witness :
    runSteps agFailOpt []
        [(⟨.seo, "validate", (), some ["optimize"], true⟩ : WStep Unit),
         ⟨.seo, "extract", (), none, false⟩] =
      ⟨[depUnmetResult ⟨.seo, "validate", (), some ["optimize"], true⟩],
       mset "validate" (depUnmetResult ⟨.seo, "validate", (), some ["optimize"], true⟩) [],
       [], none⟩ :=
  (c3_dependency_gating agFailOpt ⟨.seo, "validate", (), some ["optimize"], true⟩
      [⟨.seo, "extract", (), none, false⟩] [] ["optimize"] rfl
      ⟨"optimize", by decide, fun r h => by simp [mlookup] at h⟩).1 rfl

/-- C9 counterexample: a dependency-free workflow whose first step fails
and is critical records one result for two steps, so `results.length`
does not equal `steps.length` for every dependency-free workflow. -/
theorem c9_counterexample :
    ¬ ((executeEnhancedWorkflow agFailOpt "wf"
          [⟨.seo, "optimize", (), none, true⟩,
           ⟨.seo, "validate", (), none, false⟩]).results.length =
        ([(⟨.seo, "optimize", (), none, true⟩ : WStep Unit),
          ⟨.seo, "validate", (), none, false⟩]).length) := by
  decide

/-- C9 (amended): for every workflow whose steps declare no `dependsOn`,
in which no step's dispatch throws, and in which no dispatched step both
fails and is marked critical, the results list is exactly the per-step
dispatch results in declaration order (hence of equal length). -/
theorem c9_results_match_steps {δ : Type} (ag : CoordAgents δ) (name : String)
    (steps : List (WStep δ))
    (hdep : ∀ s ∈ steps, s.dependsOn = none)
    (hnothrow : ∀ s ∈ steps, (fulfilledResult (dispatchStep ag s)).isSome = true)
    (hcrit : ∀ s ∈ steps,
      ((fulfilledResult (dispatchStep ag s)).map fun r => r.success) = some false →
      s.critical = false) :
    ((executeEnhancedWorkflow ag name steps).results.map some =
      steps.map fun s => fulfilledResult (dispatchStep ag s)) ∧
    (executeEnhancedWorkflow ag name steps).results.length = steps.length := by
  obtain ⟨hm, hthr⟩ := runSteps_no_dep_no_critfail ag steps [] hdep hnothrow hcrit
  have hres : (executeEnhancedWorkflow ag name steps).results =
      (runSteps ag [] steps).results := by
    simp [executeEnhancedWorkflow, hthr]
  refine ⟨hres ▸ hm, ?_⟩
  have := congrArg List.length hm
  simpa [hres] using this

/-- Witness for the amended C9 at a concrete input: two throw-free
dependency-free steps whose dispatches succeed yield two results in
declaration order. -/
theorem c9_results_match_steps_witness :
    ((executeEnhancedWorkflow agFailOpt "wf"
        [(⟨.seo, "validate", (), none, true⟩ : WStep Unit),
         ⟨.seo, "extract", (), none, false⟩]).results.map some =
      [⟨.seo, "validate", (), none, true⟩,
       (⟨.seo, "extract", (), none, false⟩ : WStep Unit)].map
        fun s => fulfilledResult (dispatchStep agFailOpt s)) ∧
    (executeEnhancedWorkflow agFailOpt "wf"
        [(⟨.seo, "validate", (), none, true⟩ : WStep Unit),
         ⟨.seo, "extract", (), none, false⟩]).results.length = 2 :=
  c9_results_match_steps agFailOpt "wf"
    [⟨.seo, "validate", (), none, true⟩, ⟨.seo, "extract", (), none, false⟩]
    (by decide) (by decide) (by decide)

/-! ### Bulk executor lemmas -/

lemma settleItem_processed {ι : Type} (cfg : BulkOperationConfig ι) (item : ι)
    (oc : ItemOutcome ι) (st : BulkRunState ι) :
    (settleItem cfg item oc st).status.processedItems =
      st.status.processedItems + 1 := by
  cases oc with
  | fulfilled r => cases hr : r.success <;> simp [settleItem, hr]
  | rejected m => simp [settleItem]

lemma settleItem_total {ι : Type} (cfg : BulkOperationConfig ι) (item : ι)
    (oc : ItemOutcome ι) (st : BulkRunState ι) :
    (settleItem cfg item oc st).status.totalItems = st.status.totalItems := by
  cases oc with
  | fulfilled r => cases hr : r.success <;> simp [settleItem, hr]
  | rejected m => simp [settleItem]

lemma settleItem_counts {ι : Type} (cfg : BulkOperationConfig ι) (item : ι)
    (oc : ItemOutcome ι) (st : BulkRunState ι) :
    (settleItem cfg item oc st).status.successCount +
      (settleItem cfg item oc st).status.failureCount =
      st.status.successCount + st.status.failureCount + 1 := by
  cases oc with
  | fulfilled r => cases hr : r.success <;> simp [settleItem, hr] <;> omega
  | rejected m => simp [settleItem]; omega

lemma settleItem_results {ι : Type} (cfg : BulkOperationConfig ι) (item : ι)
    (oc : ItemOutcome ι) (st : BulkRunState ι) :
    (settleItem cfg item oc st).results = st.results ++ [settleResult item oc] := by
  cases oc with
  | fulfilled r => cases hr : r.success <;> simp [settleItem, settleResult, hr]
  | rejected m => simp [settleItem, settleResult]

lemma settleItem_succ_filter {ι : Type} (cfg : BulkOperationConfig ι) (item : ι)
    (oc : ItemOutcome ι) (st : BulkRunState ι)
    (h : st.status.successCount = (st.results.filter fun r => r.success).length) :
    (settleItem cfg item oc st).status.successCount =
      ((settleItem cfg item oc st).results.filter fun r => r.success).length := by
  cases oc with
  | fulfilled r =>
    cases hr : r.success <;>
      simp [settleItem, hr, List.filter_append, h]
  | rejected m => simp [settleItem, List.filter_append, h]

lemma settleItem_progressLog {ι : Type} (cfg : BulkOperationConfig ι) (item : ι)
    (oc : ItemOutcome ι) (st : BulkRunState ι) :
    (settleItem cfg item oc st).progressLog = st.progressLog ∨
      (settleItem cfg item oc st).progressLog =
        st.progressLog ++ [(settleItem cfg item oc st).status] := by
  cases hcb : cfg.hasOnProgress with
  | false =>
    left
    cases oc with
    | fulfilled r => cases hr : r.success <;> simp [settleItem, hr, hcb]
    | rejected m => simp [settleItem, hcb]
  | true =>
    right
    cases oc with
    | fulfilled r => cases hr : r.success <;> simp [settleItem, hr, hcb]
    | rejected m => simp [settleItem, hcb]

lemma settleItem_dispatchLog {ι : Type} (cfg : BulkOperationConfig ι) (item : ι)
    (oc : ItemOutcome ι) (st : BulkRunState ι) :
    (settleItem cfg item oc st).dispatchLog = st.dispatchLog ∧
      (settleItem cfg item oc st).startLog = st.startLog := by
  cases oc with
  | fulfilled r => cases hr : r.success <;> simp [settleItem, hr]
  | rejected m => simp [settleItem]

lemma settleFold_nil {ι : Type} (agents : String → Option (BulkAgent ι))
    (cfg : BulkOperationConfig ι) (st : BulkRunState ι) :
    settleFold agents cfg [] st = st := rfl

lemma settleFold_cons {ι : Type} (agents : String → Option (BulkAgent ι))
    (cfg : BulkOperationConfig ι) (x : ι) (xs : List ι) (st : BulkRunState ι) :
    settleFold agents cfg (x :: xs) st =
      settleFold agents cfg xs (settleItem cfg x (processItem agents cfg x) st) := rfl

lemma settleFold_processed {ι : Type} (agents : String → Option (BulkAgent ι))
    (cfg : BulkOperationConfig ι) :
    ∀ (batch : List ι) (st : BulkRunState ι),
    (settleFold agents cfg batch st).status.processedItems =
      st.status.processedItems + batch.length := by
  intro batch
  induction batch with
  | nil => intro st; simp [settleFold_nil]
  | cons x xs ih =>
    intro st
    rw [settleFold_cons, ih, settleItem_processed]
    simp
    omega

lemma settleFold_total {ι : Type} (agents : String → Option (BulkAgent ι))
    (cfg : BulkOperationConfig ι) :
    ∀ (batch : List ι) (st : BulkRunState ι),
    (settleFold agents cfg batch st).status.totalItems = st.status.totalItems := by
  intro batch
  induction batch with
  | nil => intro st; simp [settleFold_nil]
  | cons x xs ih =>
    intro st
    rw [settleFold_cons, ih, settleItem_total]

lemma settleFold_results {ι : Type} (agents : String → Option (BulkAgent ι))
    (cfg : BulkOperationConfig ι) :
    ∀ (batch : List ι) (st : BulkRunState ι),
    (settleFold agents cfg batch st).results =
      st.results ++ batch.map (itemResult agents cfg) := by
  intro batch
  induction batch with
  | nil => intro st; simp [settleFold_nil]
  | cons x xs ih =>
    intro st
    rw [settleFold_cons, ih, settleItem_results]
    simp [itemResult]

lemma settleFold_logs {ι : Type} (agents : String → Option (BulkAgent ι))
    (cfg : BulkOperationConfig ι) :
    ∀ (batch : List ι) (st : BulkRunState ι),
    (settleFold agents cfg batch st).dispatchLog = st.dispatchLog ∧
      (settleFold agents cfg batch st).startLog = st.startLog := by
  intro batch
  induction batch with
  | nil => intro st; simp [settleFold_nil]
  | cons x xs ih =>
    intro st
    rw [settleFold_cons]
    rcases ih (settleItem cfg x (processItem agents cfg x) st) with ⟨h1, h2⟩
    rcases settleItem_dispatchLog cfg x (processItem agents cfg x) st with ⟨h3, h4⟩
    exact ⟨h1.trans h3, h2.trans h4⟩

lemma settleItem_inv {ι : Type} (cfg : BulkOperationConfig ι) (item : ι)
    (oc : ItemOutcome ι) (st : BulkRunState ι) (h : runInv st) :
    runInv (settleItem cfg item oc st) := by
  obtain ⟨h1, h2, h3⟩ := h
  refine ⟨?_, settleItem_succ_filter cfg item oc st h2, ?_⟩
  · rw [settleItem_counts, settleItem_processed, h1]
  · intro s hs
    rcases settleItem_progressLog cfg item oc st with hp | hp
    · rw [hp] at hs
      obtain ⟨g1, g2, g3⟩ := h3 s hs
      refine ⟨g1, ?_, ?_⟩
      · rw [g2, settleItem_total]
      · rw [settleItem_processed]; omega
    · rw [hp, List.mem_append] at hs
      rcases hs with hs | hs
      · obtain ⟨g1, g2, g3⟩ := h3 s hs
        refine ⟨g1, ?_, ?_⟩
        · rw [g2, settleItem_total]
        · rw [settleItem_processed]; omega
      · rw [List.mem_singleton] at hs
        subst hs
        refine ⟨?_, rfl, le_refl _⟩
        rw [settleItem_counts, settleItem_processed, h1]

lemma settleFold_inv {ι : Type} (agents : String → Option (BulkAgent ι))
    (cfg : BulkOperationConfig ι) :
    ∀ (batch : List ι) (st : BulkRunState ι), runInv st →
    runInv (settleFold agents cfg batch st) := by
  intro batch
  induction batch with
  | nil => intro st h; simpa [settleFold_nil] using h
  | cons x xs ih =>
    intro st h
    rw [settleFold_cons]
    exact ih _ (settleItem_inv cfg x (processItem agents cfg x) st h)

lemma processBatch_processed {ι : Type} (agents : String → Option (BulkAgent ι))
    (cfg : BulkOperationConfig ι) (batch : List ι) (st : BulkRunState ι) :
    (processBatch agents cfg batch st).status.processedItems =
      st.status.processedItems + batch.length := by
  rw [processBatch, settleFold_processed]

lemma processBatch_total {ι : Type} (agents : String → Option (BulkAgent ι))
    (cfg : BulkOperationConfig ι) (batch : List ι) (st : BulkRunState ι) :
    (processBatch agents cfg batch st).status.totalItems = st.status.totalItems := by
  rw [processBatch, settleFold_total]

lemma processBatch_results {ι : Type} (agents : String → Option (BulkAgent ι))
    (cfg : BulkOperationConfig ι) (batch : List ι) (st : BulkRunState ι) :
    (processBatch agents cfg batch st).results =
      st.results ++ batch.map (itemResult agents cfg) := by
  rw [processBatch, settleFold_results]

lemma processBatch_dispatchLog {ι : Type} (agents : String → Option (BulkAgent ι))
    (cfg : BulkOperationConfig ι) (batch : List ι) (st : BulkRunState ι) :
    (processBatch agents cfg batch st).dispatchLog = st.dispatchLog ++ [batch] := by
  rw [processBatch, (settleFold_logs agents cfg batch _).1]

lemma processBatch_startLog {ι : Type} (agents : String → Option (BulkAgent ι))
    (cfg : BulkOperationConfig ι) (batch : List ι) (st : BulkRunState ι) :
    (processBatch agents cfg batch st).startLog =
      st.startLog ++ [st.status.processedItems] := by
  rw [processBatch, (settleFold_logs agents cfg batch _).2]

lemma processBatch_inv {ι : Type} (agents : String → Option (BulkAgent ι))
    (cfg : BulkOperationConfig ι) (batch : List ι) (st : BulkRunState ι)
    (h : runInv st) : runInv (processBatch agents cfg batch st) := by
  rw [processBatch]
  exact settleFold_inv agents cfg batch _ h

lemma finalizeRun_inv {ι : Type} (cancelAt : Option Nat) (j : Nat)
    (st : BulkRunState ι) (h : runInv st) : runInv (finalizeRun cancelAt j st) := by
  obtain ⟨h1, h2, h3⟩ := h
  exact ⟨h1, h2, h3⟩

lemma runBatches_inv {ι : Type} (agents : String → Option (BulkAgent ι))
    (cfg : BulkOperationConfig ι) (cancelAt : Option Nat) :
    ∀ (cs : List (List ι)) (j : Nat) (st : BulkRunState ι), runInv st →
    runInv (runBatches agents cfg cancelAt j cs st) := by
  intro cs
  induction cs with
  | nil => intro j st h; exact finalizeRun_inv cancelAt j st h
  | cons c rest ih =>
    intro j st h
    rw [runBatches]
    by_cases hc : cancelObserved cancelAt j = true
    · rw [if_pos hc]; exact finalizeRun_inv cancelAt j st h
    · rw [if_neg hc]
      exact ih (j + 1) _ (processBatch_inv agents cfg c st h)

lemma finalizeRun_fields {ι : Type} (cancelAt : Option Nat) (j : Nat)
    (st : BulkRunState ι) :
    (finalizeRun cancelAt j st).status.processedItems = st.status.processedItems ∧
    (finalizeRun cancelAt j st).status.totalItems = st.status.totalItems ∧
    (finalizeRun cancelAt j st).results = st.results ∧
    (finalizeRun cancelAt j st).dispatchLog = st.dispatchLog ∧
    (finalizeRun cancelAt j st).startLog = st.startLog ∧
    (finalizeRun cancelAt j st).progressLog = st.progressLog ∧
    (finalizeRun cancelAt j st).status.successCount = st.status.successCount ∧
    (finalizeRun cancelAt j st).status.failureCount = st.status.failureCount := by
  simp [finalizeRun]

lemma runBatches_stop {ι : Type} (agents : String → Option (BulkAgent ι))
    (cfg : BulkOperationConfig ι) (cancelAt : Option Nat) (j : Nat)
    (cs : List (List ι)) (st : BulkRunState ι)
    (h : cancelObserved cancelAt j = true) :
    runBatches agents cfg cancelAt j cs st = finalizeRun cancelAt j st := by
  cases cs with
  | nil => rfl
  | cons c rest => rw [runBatches, if_pos h]

/-- Cancellation-free run: every batch is processed in order, and the run
completes. -/
lemma runBatches_none {ι : Type} (agents : String → Option (BulkAgent ι))
    (cfg : BulkOperationConfig ι) :
    ∀ (cs : List (List ι)) (j : Nat) (st : BulkRunState ι),
    (runBatches agents cfg none j cs st).status.processedItems =
      st.status.processedItems + (cs.map List.length).sum ∧
    (runBatches agents cfg none j cs st).dispatchLog = st.dispatchLog ++ cs ∧
    (runBatches agents cfg none j cs st).startLog =
      st.startLog ++ startOffsets st.status.processedItems cs ∧
    (runBatches agents cfg none j cs st).results =
      st.results ++ cs.flatten.map (itemResult agents cfg) ∧
    (runBatches agents cfg none j cs st).status.status = RunState.completed ∧
    (runBatches agents cfg none j cs st).status.totalItems = st.status.totalItems := by
  intro cs
  induction cs with
  | nil =>
    intro j st
    have hrb : runBatches agents cfg none j [] st = finalizeRun none j st := rfl
    rw [hrb]
    obtain ⟨f1, f2, f3, f4, f5, f6, _, _⟩ := finalizeRun_fields (ι := ι) none j st
    refine ⟨by simp [f1], by simp [f4], by simp [f5, startOffsets], by simp [f3],
      ?_, f2⟩
    simp [finalizeRun, cancelObserved]
  | cons c rest ih =>
    intro j st
    have hobs : cancelObserved none j = false := rfl
    rw [runBatches, hobs]
    simp only [Bool.false_eq_true, if_false]
    obtain ⟨i1, i2, i3, i4, i5, i6⟩ := ih (j + 1) (processBatch agents cfg c st)
    refine ⟨?_, ?_, ?_, ?_, i5, ?_⟩
    · rw [i1, processBatch_processed]
      simp
      omega
    · rw [i2, processBatch_dispatchLog]
      simp
    · rw [i3, processBatch_startLog, processBatch_processed, startOffsets]
      simp
    · rw [i4, processBatch_results]
      simp
    · rw [i6, processBatch_total]

/-- Cancellation observed first at boundary `c` with `j < c ≤ j + cs.length`:
the batches at boundaries `j .. c-1` still run to completion, no later
batch starts, and the run is cancelled. -/
lemma runBatches_cancel {ι : Type} (agents : String → Option (BulkAgent ι))
    (cfg : BulkOperationConfig ι) :
    ∀ (cs : List (List ι)) (j c : Nat) (st : BulkRunState ι),
    j < c → c ≤ j + cs.length →
    (runBatches agents cfg (some c) j cs st).dispatchLog =
      st.dispatchLog ++ cs.take (c - j) ∧
    (runBatches agents cfg (some c) j cs st).status.status = RunState.cancelled ∧
    (runBatches agents cfg (some c) j cs st).status.processedItems =
      st.status.processedItems + ((cs.take (c - j)).map List.length).sum := by
  intro cs
  induction cs with
  | nil =>
    intro j c st h1 h2
    simp at h2
    omega
  | cons b rest ih =>
    intro j c st h1 h2
    have hobs : cancelObserved (some c) j = false := by
      simp [cancelObserved]
      omega
    rw [runBatches, hobs]
    simp only [Bool.false_eq_true, if_false]
    by_cases hc : j + 1 < c
    · obtain ⟨i1, i2, i3⟩ := ih (j + 1) c (processBatch agents cfg b st) hc
        (by simp at h2 ⊢; omega)
      have htake : (b :: rest).take (c - j) = b :: rest.take (c - (j + 1)) := by
        have : c - j = (c - (j + 1)) + 1 := by omega
        rw [this, List.take_succ_cons]
      refine ⟨?_, i2, ?_⟩
      · rw [i1, processBatch_dispatchLog, htake]
        simp
      · rw [i3, processBatch_processed, htake]
        simp
        omega
    · have hceq : c = j + 1 := by omega
      have hobs2 : cancelObserved (some c) (j + 1) = true := by
        simp [cancelObserved]
        omega
      rw [runBatches_stop agents cfg (some c) (j + 1) rest _ hobs2]
      obtain ⟨f1, f2, f3, f4, f5, f6, _, _⟩ :=
        finalizeRun_fields (ι := ι) (some c) (j + 1) (processBatch agents cfg b st)
      have htake : (b :: rest).take (c - j) = [b] := by
        have : c - j = 1 := by omega
        rw [this]
        rfl
      refine ⟨?_, ?_, ?_⟩
      · rw [f4, processBatch_dispatchLog, htake]
      · simp [finalizeRun, hobs2]
      · rw [f1, processBatch_processed, htake]
        simp

/-- Any run processes the items of some prefix of its batch list, the whole
list when uncancelled, and ends `completed` or `cancelled`. -/
lemma runBatches_take {ι : Type} (agents : String → Option (BulkAgent ι))
    (cfg : BulkOperationConfig ι) (cancelAt : Option Nat) :
    ∀ (cs : List (List ι)) (j : Nat) (st : BulkRunState ι),
    ∃ k ≤ cs.length,
      (runBatches agents cfg cancelAt j cs st).status.processedItems =
        st.status.processedItems + ((cs.take k).map List.length).sum ∧
      ((runBatches agents cfg cancelAt j cs st).status.status = RunState.completed ∨
        (runBatches agents cfg cancelAt j cs st).status.status = RunState.cancelled) := by
  intro cs
  induction cs with
  | nil =>
    intro j st
    refine ⟨0, by simp, ?_, ?_⟩
    · have hrb : runBatches agents cfg cancelAt j [] st = finalizeRun cancelAt j st := rfl
      rw [hrb, (finalizeRun_fields cancelAt j st).1]
      simp
    · have hrb : runBatches agents cfg cancelAt j [] st = finalizeRun cancelAt j st := rfl
      rw [hrb]
      cases h : cancelObserved cancelAt j <;> simp [finalizeRun, h]
  | cons b rest ih =>
    intro j st
    by_cases hc : cancelObserved cancelAt j = true
    · rw [runBatches_stop agents cfg cancelAt j _ st hc]
      refine ⟨0, by simp, ?_, ?_⟩
      · rw [(finalizeRun_fields cancelAt j st).1]
        simp
      · cases h : cancelObserved cancelAt j <;> simp [finalizeRun, h]
    · have hc2 : cancelObserved cancelAt j = false := by
        cases h : cancelObserved cancelAt j
        · rfl
        · exact absurd h hc
      rw [runBatches, hc2]
      simp only [Bool.false_eq_true, if_false]
      obtain ⟨k, hk, h1, h2⟩ := ih (j + 1) (processBatch agents cfg b st)
      refine ⟨k + 1, by simp; omega, ?_, h2⟩
      rw [h1, processBatch_processed, List.take_succ_cons]
      simp
      omega

lemma chunksFuel_nil {ι : Type} (b fuel : Nat) :
    chunksFuel (ι := ι) b fuel [] = [] := by
  cases fuel <;> rfl

lemma chunksFuel_succ_cons {ι : Type} (b fuel : Nat) (x : ι) (xs : List ι) :
    chunksFuel b (fuel + 1) (x :: xs) =
      (x :: xs).take b :: chunksFuel b fuel ((x :: xs).drop b) := rfl

lemma chunksFuel_sum {ι : Type} (b : Nat) :
    ∀ (fuel : Nat) (l : List ι),
    ((chunksFuel b fuel l).map List.length).sum = l.length := by
  intro fuel
  induction fuel with
  | zero =>
    intro l
    cases l with
    | nil => rfl
    | cons x xs => simp [chunksFuel]
  | succ fuel ih =>
    intro l
    cases l with
    | nil => simp [chunksFuel_nil]
    | cons x xs =>
      rw [chunksFuel_succ_cons]
      simp only [List.map_cons, List.sum_cons, ih]
      simp [List.length_take, List.length_drop]
      omega

lemma chunksFuel_flatten {ι : Type} (b : Nat) :
    ∀ (fuel : Nat) (l : List ι), (chunksFuel b fuel l).flatten = l := by
  intro fuel
  induction fuel with
  | zero =>
    intro l
    cases l with
    | nil => rfl
    | cons x xs => simp [chunksFuel]
  | succ fuel ih =>
    intro l
    cases l with
    | nil => simp [chunksFuel_nil]
    | cons x xs =>
      rw [chunksFuel_succ_cons]
      simp only [List.flatten_cons, ih]
      exact List.take_append_drop b (x :: xs)

lemma chunksFuel_length {ι : Type} (b : Nat) (hb : 0 < b) :
    ∀ (fuel : Nat) (l : List ι), l.length ≤ fuel →
    (chunksFuel b fuel l).length = (l.length + b - 1) / b := by
  intro fuel
  induction fuel with
  | zero =>
    intro l hf
    have : l = [] := by
      cases l with
      | nil => rfl
      | cons x xs => simp at hf
    subst this
    rw [chunksFuel_nil]
    simp [Nat.div_eq_of_lt (by omega : b - 1 < b)]
  | succ fuel ih =>
    intro l hf
    cases l with
    | nil =>
      rw [chunksFuel_nil]
      simp [Nat.div_eq_of_lt (by omega : b - 1 < b)]
    | cons x xs =>
      rw [chunksFuel_succ_cons]
      have hlen : ((x :: xs).drop b).length = (x :: xs).length - b := by
        simp [List.length_drop]
      have hrec := ih ((x :: xs).drop b) (by simp at hf ⊢; omega)
      rw [List.length_cons, hrec, hlen]
      set d := (x :: xs).length with hd
      have hd1 : 1 ≤ d := by simp [hd]
      by_cases hdb : d ≤ b
      · have h0 : d - b = 0 := by omega
        rw [h0]
        have ha : d + b - 1 = (d - 1) + b := by omega
        rw [ha, Nat.add_div_right _ hb, Nat.div_eq_of_lt (by omega : d - 1 < b),
          Nat.div_eq_of_lt (by omega : 0 + b - 1 < b)]
      · have ha : d + b - 1 = ((d - b) + b - 1) + b := by omega
        rw [ha, Nat.add_div_right _ hb]

lemma chunksFuel_dropLast {ι : Type} (b : Nat) :
    ∀ (fuel : Nat) (l : List ι), ∀ c ∈ (chunksFuel b fuel l).dropLast,
    c.length = b := by
  intro fuel
  induction fuel with
  | zero =>
    intro l c hc
    cases l with
    | nil => simp [chunksFuel_nil] at hc
    | cons x xs => simp [chunksFuel] at hc
  | succ fuel ih =>
    intro l c hc
    cases l with
    | nil => simp [chunksFuel_nil] at hc
    | cons x xs =>
      rw [chunksFuel_succ_cons] at hc
      cases hrec : chunksFuel b fuel ((x :: xs).drop b) with
      | nil => rw [hrec] at hc; simp at hc
      | cons r rs =>
        rw [hrec] at hc
        rw [List.dropLast_cons₂] at hc
        rcases List.mem_cons.mp hc with hc | hc
        · subst hc
          have hne : (x :: xs).drop b ≠ [] := by
            intro h
            rw [h, chunksFuel_nil] at hrec
            exact List.noConfusion hrec
          have hblt : b < (x :: xs).length := by
            by_contra hle
            push_neg at hle
            exact hne (List.drop_eq_nil_of_le hle)
          simp only [List.length_take]
          omega
        · exact ih ((x :: xs).drop b) c (by rw [hrec]; exact hc)

lemma chunksFuel_getLast {ι : Type} (b : Nat) (hb : 0 < b) :
    ∀ (fuel : Nat) (l : List ι), l.length ≤ fuel →
    ∀ c, (chunksFuel b fuel l).getLast? = some c →
    c.length = if l.length % b = 0 then b else l.length % b := by
  intro fuel
  induction fuel with
  | zero =>
    intro l hf c hc
    have : l = [] := by
      cases l with
      | nil => rfl
      | cons x xs => simp at hf
    subst this
    rw [chunksFuel_nil] at hc
    exact Option.noConfusion hc
  | succ fuel ih =>
    intro l hf c hc
    cases l with
    | nil =>
      rw [chunksFuel_nil] at hc
      exact Option.noConfusion hc
    | cons x xs =>
      rw [chunksFuel_succ_cons] at hc
      cases hrec : chunksFuel b fuel ((x :: xs).drop b) with
      | nil =>
        rw [hrec] at hc
        simp [List.getLast?_singleton] at hc
        have hnil : (x :: xs).drop b = [] := by
          by_contra hne
          cases hdr : (x :: xs).drop b with
          | nil => exact hne hdr
          | cons y ys =>
            rw [hdr] at hrec
            cases fuel with
            | zero => exact List.noConfusion hrec
            | succ fuel2 => rw [chunksFuel_succ_cons] at hrec; exact List.noConfusion hrec
        have hdb : (x :: xs).length ≤ b := by
          have h2 := congrArg List.length hnil
          simp only [List.length_drop, List.length_nil] at h2
          omega
        subst hc
        have h1 : 1 ≤ (x :: xs).length := by simp
        by_cases heq : (x :: xs).length = b
        · simp [List.length_take, heq, Nat.mod_self]
        · have hlt : (x :: xs).length < b := by omega
          rw [Nat.mod_eq_of_lt hlt]
          have hne0 : ¬ ((x :: xs).length = 0) := by simp
          rw [if_neg hne0]
          simp only [List.length_take]
          omega
      | cons r rs =>
        rw [hrec] at hc
        rw [List.getLast?_cons_cons] at hc
        have hne : (x :: xs).drop b ≠ [] := by
          intro h
          rw [h, chunksFuel_nil] at hrec
          exact List.noConfusion hrec
        have hdb : b < (x :: xs).length := by
          by_contra hle
          push_neg at hle
          exact hne (List.drop_eq_nil_of_le hle)
        have hlen : ((x :: xs).drop b).length = (x :: xs).length - b := by
          simp [List.length_drop]
        have hres := ih ((x :: xs).drop b) (by simp at hf ⊢; omega) c (by rw [hrec]; exact hc)
        rw [hlen] at hres
        have hmod : (x :: xs).length % b = ((x :: xs).length - b) % b :=
          Nat.mod_eq_sub_mod (by omega)
        rw [hmod]
        exact hres

lemma effectiveBatchSize_pos {ι : Type} (cfg : BulkOperationConfig ι) :
    0 < effectiveBatchSize cfg := by
  cases h : cfg.batchSize with
  | none => simp [effectiveBatchSize, h]
  | some b =>
    by_cases hb : b = 0
    · simp [effectiveBatchSize, h, hb]
    · simp [effectiveBatchSize, h, hb]
      omega

lemma chunkList_sum {ι : Type} (b : Nat) (l : List ι) :
    ((chunkList b l).map List.length).sum = l.length :=
  chunksFuel_sum b l.length l

lemma chunkList_flatten {ι : Type} (b : Nat) (l : List ι) :
    (chunkList b l).flatten = l :=
  chunksFuel_flatten b l.length l

lemma chunkList_length {ι : Type} (b : Nat) (hb : 0 < b) (l : List ι) :
    (chunkList b l).length = (l.length + b - 1) / b :=
  chunksFuel_length b hb l.length l (le_refl _)

lemma chunkList_dropLast {ι : Type} (b : Nat) (l : List ι) :
    ∀ c ∈ (chunkList b l).dropLast, c.length = b :=
  chunksFuel_dropLast b l.length l

lemma chunkList_getLast {ι : Type} (b : Nat) (hb : 0 < b) (l : List ι) :
    ∀ c, (chunkList b l).getLast? = some c →
    c.length = if l.length % b = 0 then b else l.length % b :=
  chunksFuel_getLast b hb l.length l (le_refl _)

lemma runBatches_total {ι : Type} (agents : String → Option (BulkAgent ι))
    (cfg : BulkOperationConfig ι) (cancelAt : Option Nat) :
    ∀ (cs : List (List ι)) (j : Nat) (st : BulkRunState ι),
    (runBatches agents cfg cancelAt j cs st).status.totalItems =
      st.status.totalItems := by
  intro cs
  induction cs with
  | nil =>
    intro j st
    exact (finalizeRun_fields cancelAt j st).2.1
  | cons c rest ih =>
    intro j st
    rw [runBatches]
    by_cases hc : cancelObserved cancelAt j = true
    · rw [if_pos hc]
      exact (finalizeRun_fields cancelAt j st).2.1
    · rw [if_neg hc, ih, processBatch_total]

lemma initialRunState_inv {ι : Type} (id : String) (cfg : BulkOperationConfig ι) :
    runInv (initialRunState id cfg) := by
  refine ⟨rfl, rfl, ?_⟩
  intro s hs
  simp [initialRunState] at hs

/-- Final run state of `BulkOperation.execute` (by unfolding the lets). -/
lemma execute_stF {ι : Type} (id : String) (agents : String → Option (BulkAgent ι))
    (cfg : BulkOperationConfig ι) (cancelAt : Option Nat) :
    (BulkOperation.execute id agents cfg cancelAt).finalStatus =
      (runBatches agents cfg cancelAt 0
        (chunkList (effectiveBatchSize cfg) cfg.items) (initialRunState id cfg)).status ∧
    (BulkOperation.execute id agents cfg cancelAt).progressLog =
      (runBatches agents cfg cancelAt 0
        (chunkList (effectiveBatchSize cfg) cfg.items) (initialRunState id cfg)).progressLog ∧
    (BulkOperation.execute id agents cfg cancelAt).dispatchLog =
      (runBatches agents cfg cancelAt 0
        (chunkList (effectiveBatchSize cfg) cfg.items) (initialRunState id cfg)).dispatchLog ∧
    (BulkOperation.execute id agents cfg cancelAt).startLog =
      (runBatches agents cfg cancelAt 0
        (chunkList (effectiveBatchSize cfg) cfg.items) (initialRunState id cfg)).startLog ∧
    (BulkOperation.execute id agents cfg cancelAt).result.results =
      (runBatches agents cfg cancelAt 0
        (chunkList (effectiveBatchSize cfg) cfg.items) (initialRunState id cfg)).results ∧
    (BulkOperation.execute id agents cfg cancelAt).result.success =
      decide (0 < (runBatches agents cfg cancelAt 0
        (chunkList (effectiveBatchSize cfg) cfg.items)
        (initialRunState id cfg)).status.successCount) :=
  ⟨rfl, rfl, rfl, rfl, rfl, rfl⟩

lemma take_map_sum_le {ι : Type} (cs : List (List ι)) (k : Nat) :
    (((cs.take k).map List.length).sum : Nat) ≤ (cs.map List.length).sum := by
  conv_rhs => rw [← List.take_append_drop k cs]
  rw [List.map_append, List.sum_append]
  omega

/-! ### Claim theorems for the bulk executor -/

/-- C4: for every bulk run, `successCount + failureCount == processedItems`
holds at every `onProgress` snapshot and at completion, `processedItems`
never exceeds `totalItems`, and a run that is never cancelled reaches
`processedItems == totalItems` (the embedding has no fatal-internal-error
path: items always settle). -/
theorem c4_bulk_count_invariant :
    ∀ (ι : Type) (agents : String → Option (BulkAgent ι))
      (cfg : BulkOperationConfig ι) (id : String) (cancelAt : Option Nat),
    (∀ s ∈ (BulkOperation.execute id agents cfg cancelAt).progressLog,
        s.successCount + s.failureCount = s.processedItems ∧
        s.processedItems ≤ s.totalItems) ∧
    ((BulkOperation.execute id agents cfg cancelAt).finalStatus.successCount +
        (BulkOperation.execute id agents cfg cancelAt).finalStatus.failureCount =
      (BulkOperation.execute id agents cfg cancelAt).finalStatus.processedItems) ∧
    ((BulkOperation.execute id agents cfg cancelAt).finalStatus.processedItems ≤
      (BulkOperation.execute id agents cfg cancelAt).finalStatus.totalItems) ∧
    ((BulkOperation.execute id agents cfg none).finalStatus.processedItems =
      (BulkOperation.execute id agents cfg none).finalStatus.totalItems) := by
  intro ι agents cfg id cancelAt
  obtain ⟨e1, e2, _, _, _, _⟩ := execute_stF id agents cfg cancelAt
  set cs := chunkList (effectiveBatchSize cfg) cfg.items with hcs
  set stF := runBatches agents cfg cancelAt 0 cs (initialRunState id cfg) with hstF
  have hinv : runInv stF :=
    runBatches_inv agents cfg cancelAt cs 0 _ (initialRunState_inv id cfg)
  have htot : stF.status.totalItems = cfg.items.length :=
    runBatches_total agents cfg cancelAt cs 0 _
  obtain ⟨k, hk, hproc, _⟩ := runBatches_take agents cfg cancelAt cs 0 (initialRunState id cfg)
  have hsum : ((cs.take k).map List.length).sum ≤ cfg.items.length := by
    have := take_map_sum_le cs k
    rw [hcs, chunkList_sum] at this
    exact this
  have hle : stF.status.processedItems ≤ cfg.items.length := by
    rw [← hstF] at hproc
    rw [hproc]
    have h0 : (initialRunState id cfg).status.processedItems = 0 := rfl
    rw [h0]
    omega
  refine ⟨?_, ?_, ?_, ?_⟩
  · intro s hs
    rw [e2] at hs
    obtain ⟨g1, g2, g3⟩ := hinv.2.2 s hs
    exact ⟨g1, by rw [g2, htot]; omega⟩
  · rw [e1]; exact hinv.1
  · rw [e1, htot]; exact hle
  · obtain ⟨en1, _, _, _, _, _⟩ := execute_stF id agents cfg none
    obtain ⟨n1, _, _, _, _, n6⟩ :=
      runBatches_none agents cfg cs 0 (initialRunState id cfg)
    rw [en1, ← hcs, n1, n6]
    have h0 : (initialRunState id cfg).status.processedItems = 0 := rfl
    have ht0 : (initialRunState id cfg).status.totalItems = cfg.items.length := rfl
    rw [h0, ht0, hcs, chunkList_sum]
    omega

/-- Witness for C4 at a concrete 12-item run with batch size 5: the first
progress snapshot satisfies the count law, and the final status does. -/
theorem c4_bulk_count_invariant_witness :
    (({ id := "op1", type := "seo-bulk-update", totalItems := 12, processedItems := 1
      , successCount := 1, failureCount := 0, status := RunState.running
      , startTime := 0, endTime := none } : BulkOperationStatus).successCount +
      ({ id := "op1", type := "seo-bulk-update", totalItems := 12, processedItems := 1
       , successCount := 1, failureCount := 0, status := RunState.running
       , startTime := 0, endTime := none } : BulkOperationStatus).failureCount =
      ({ id := "op1", type := "seo-bulk-update", totalItems := 12, processedItems := 1
       , successCount := 1, failureCount := 0, status := RunState.running
       , startTime := 0, endTime := none } : BulkOperationStatus).processedItems) ∧
    ((BulkOperation.execute "op1" bagTest cfgTest none).finalStatus.processedItems =
      (BulkOperation.execute "op1" bagTest cfgTest none).finalStatus.totalItems) :=
  ⟨((c4_bulk_count_invariant Nat bagTest cfgTest "op1" none).1
      { id := "op1", type := "seo-bulk-update", totalItems := 12, processedItems := 1
      , successCount := 1, failureCount := 0, status := RunState.running
      , startTime := 0, endTime := none } (by decide)).1,
   (c4_bulk_count_invariant Nat bagTest cfgTest "op1" none).2.2.2⟩

/-- C5: a cancellation-free bulk run partitions its `n` items into
`ceil(n/b)` contiguous batches in item order, all of effective batch size
`b` except the last, which has size `n mod b` (or `b` when `b` divides
`n`); the dispatch log equals that partition, and the processed count
observed at each batch dispatch equals the total size of all earlier
batches, i.e. no item of a batch is dispatched before every item of the
previous batch has settled. -/
theorem c5_batch_partition :
    ∀ (ι : Type) (agents : String → Option (BulkAgent ι))
      (cfg : BulkOperationConfig ι) (id : String),
    (BulkOperation.execute id agents cfg none).dispatchLog =
      chunkList (effectiveBatchSize cfg) cfg.items ∧
    (chunkList (effectiveBatchSize cfg) cfg.items).flatten = cfg.items ∧
    (chunkList (effectiveBatchSize cfg) cfg.items).length =
      (cfg.items.length + effectiveBatchSize cfg - 1) / effectiveBatchSize cfg ∧
    (∀ c ∈ (chunkList (effectiveBatchSize cfg) cfg.items).dropLast,
      c.length = effectiveBatchSize cfg) ∧
    (∀ c, (chunkList (effectiveBatchSize cfg) cfg.items).getLast? = some c →
      c.length =
        if cfg.items.length % effectiveBatchSize cfg = 0 then effectiveBatchSize cfg
        else cfg.items.length % effectiveBatchSize cfg) ∧
    (BulkOperation.execute id agents cfg none).startLog =
      startOffsets 0 (chunkList (effectiveBatchSize cfg) cfg.items) := by
  intro ι agents cfg id
  obtain ⟨_, _, e3, e4, _, _⟩ := execute_stF id agents cfg none
  obtain ⟨_, n2, n3, _, _, _⟩ :=
    runBatches_none agents cfg (chunkList (effectiveBatchSize cfg) cfg.items) 0
      (initialRunState id cfg)
  have hb := effectiveBatchSize_pos cfg
  refine ⟨?_, chunkList_flatten _ _, chunkList_length _ hb _,
    chunkList_dropLast _ _, chunkList_getLast _ hb _, ?_⟩
  · rw [e3, n2]
    rfl
  · rw [e4, n3]
    rfl

/-- Witness for C5: 12 items at batch size 5 partition into batches of
sizes [5, 5, 2], with the dispatch and start logs matching. -/
theorem c5_batch_partition_witness :
    (BulkOperation.execute "op1" bagTest cfgTest none).dispatchLog =
      chunkList 5 cfgTest.items ∧
    chunkList 5 cfgTest.items = [[0, 1, 2, 3, 4], [5, 6, 7, 8, 9], [10, 11]] ∧
    (BulkOperation.execute "op1" bagTest cfgTest none).startLog = [0, 5, 10] :=
  ⟨(c5_batch_partition Nat bagTest cfgTest "op1").1, by decide,
    ((c5_batch_partition Nat bagTest cfgTest "op1").2.2.2.2.2).trans (by decide)⟩

/-- C10: `BulkOperation.execute` treats an absent or zero `batchSize` as
the default 5 (so the batch loop step is always positive), keeps any
positive `batchSize`, and an uncancelled run processes every item and
completes. -/
theorem c10_batch_size_default :
    ∀ (ι : Type) (cfg : BulkOperationConfig ι)
      (agents : String → Option (BulkAgent ι)) (id : String),
    0 < effectiveBatchSize cfg ∧
    effectiveBatchSize { cfg with batchSize := none } = 5 ∧
    effectiveBatchSize { cfg with batchSize := some 0 } = 5 ∧
    (∀ b : Nat, effectiveBatchSize { cfg with batchSize := some (b + 1) } = b + 1) ∧
    ((BulkOperation.execute id agents cfg none).finalStatus.processedItems =
      cfg.items.length) ∧
    (BulkOperation.execute id agents cfg none).finalStatus.status =
      RunState.completed := by
  intro ι cfg agents id
  obtain ⟨e1, _, _, _, _, _⟩ := execute_stF id agents cfg none
  obtain ⟨n1, _, _, _, n5, _⟩ :=
    runBatches_none agents cfg (chunkList (effectiveBatchSize cfg) cfg.items) 0
      (initialRunState id cfg)
  refine ⟨effectiveBatchSize_pos cfg, rfl, rfl, fun b => ?_, ?_, ?_⟩
  · simp [effectiveBatchSize]
  · rw [e1, n1, chunkList_sum]
    have h0 : (initialRunState id cfg).status.processedItems = 0 := rfl
    omega
  · rw [e1, n5]

/-- C1 counterexample: with the shipped enhanced agents (catalog methods
present and resolving, seo methods absent so the call rejects), the
workflow [catalog-sync (succeeds), seo-optimize (throws)] aborts through
the catch branch and returns `success = false` even though a recorded
result has `success = true`, so the claimed iff is false of the program. -/
theorem c1_counterexample :
    ¬ (((executeEnhancedWorkflow agShipped "w"
          [⟨.catalog, "sync", (), none, false⟩,
           ⟨.seo, "optimize", (), none, false⟩]).success = true) ↔
        ∃ r ∈ (executeEnhancedWorkflow agShipped "w"
          [(⟨.catalog, "sync", (), none, false⟩ : WStep Unit),
           ⟨.seo, "optimize", (), none, false⟩]).results, r.success = true) := by
  decide

/-- C1 (amended): for every workflow run in which no dispatched step's
operation throws, and for every bulk run, the overall `success` flag is
true exactly when at least one recorded result has `success == true`,
independent of the failure count.  (When a dispatch throws, the workflow's
catch branch returns `success == false` with the partial results
regardless.) -/
theorem c1_success_iff_any_success :
    (∀ (δ : Type) (ag : CoordAgents δ) (name : String) (steps : List (WStep δ)),
      (runSteps ag [] steps).thrown = none →
      ((executeEnhancedWorkflow ag name steps).success = true ↔
        ∃ r ∈ (executeEnhancedWorkflow ag name steps).results, r.success = true)) ∧
    (∀ (ι : Type) (agents : String → Option (BulkAgent ι))
      (cfg : BulkOperationConfig ι) (id : String) (cancelAt : Option Nat),
      ((BulkOperation.execute id agents cfg cancelAt).result.success = true ↔
        ∃ r ∈ (BulkOperation.execute id agents cfg cancelAt).result.results,
          r.success = true)) := by
  constructor
  · intro δ ag name steps hthr
    simp only [executeEnhancedWorkflow, hthr, decide_eq_true_eq]
    exact length_filter_pos_iff _ _
  · intro ι agents cfg id cancelAt
    obtain ⟨_, _, _, _, e5, e6⟩ := execute_stF id agents cfg cancelAt
    set stF := runBatches agents cfg cancelAt 0
      (chunkList (effectiveBatchSize cfg) cfg.items) (initialRunState id cfg) with hstF
    have hinv : runInv stF :=
      runBatches_inv agents cfg cancelAt _ 0 _ (initialRunState_inv id cfg)
    rw [e5, e6, decide_eq_true_iff, hinv.2.1]
    exact length_filter_pos_iff _ _

/-- Witness for the amended C1: a throw-free one-step workflow whose
dispatch resolves successfully satisfies the iff, and so does the 12-item
bulk test run. -/
theorem c1_success_iff_any_success_witness :
    ((executeEnhancedWorkflow agFailOpt "w"
        [(⟨.seo, "validate", (), none, false⟩ : WStep Unit)]).success = true ↔
      ∃ r ∈ (executeEnhancedWorkflow agFailOpt "w"
        [(⟨.seo, "validate", (), none, false⟩ : WStep Unit)]).results,
        r.success = true) ∧
    ((BulkOperation.execute "op1" bagTest cfgTest none).result.success = true ↔
      ∃ r ∈ (BulkOperation.execute "op1" bagTest cfgTest none).result.results,
        r.success = true) :=
  ⟨c1_success_iff_any_success.1 Unit agFailOpt "w"
      [⟨.seo, "validate", (), none, false⟩] (by decide),
   c1_success_iff_any_success.2 Nat bagTest cfgTest "op1" none⟩

/-- C7: an item whose dispatched operation rejects does not disturb its
batch siblings: all items of the batch still settle and are counted, the
result recorded at the item's position is a synthesized failure carrying
the rejection message and the offending item, and no exception escapes the
run (its terminal status is `completed` or `cancelled`, never the
orchestration-fault `failed`). -/
theorem c7_item_failure_captured {ι : Type} (agents : String → Option (BulkAgent ι))
    (cfg : BulkOperationConfig ι) (st : BulkRunState ι) (batch : List ι)
    (i : Nat) (item : ι) (msg : String)
    (hi : batch.get? i = some item)
    (hr : processItem agents cfg item = ItemOutcome.rejected msg) :
    (processBatch agents cfg batch st).status.processedItems =
      st.status.processedItems + batch.length ∧
    (processBatch agents cfg batch st).results.length =
      st.results.length + batch.length ∧
    (processBatch agents cfg batch st).results.get? (st.results.length + i) =
      some { success := false, message := none, error := some msg, data := some item } ∧
    (∀ (id : String) (cancelAt : Option Nat),
      (BulkOperation.execute id agents cfg cancelAt).finalStatus.status =
          RunState.completed ∨
        (BulkOperation.execute id agents cfg cancelAt).finalStatus.status =
          RunState.cancelled) := by
  refine ⟨processBatch_processed agents cfg batch st, ?_, ?_, ?_⟩
  · rw [processBatch_results]
    simp
  · rw [processBatch_results]
    have hlen : i < batch.length := by
      by_contra hge
      push_neg at hge
      rw [List.get?_eq_none.mpr hge] at hi
      exact Option.noConfusion hi
    rw [List.get?_append_right (by omega)]
    have : st.results.length + i - st.results.length = i := by omega
    rw [this, List.get?_map, hi]
    simp [itemResult, hr, settleResult]
  · intro id cancelAt
    obtain ⟨e1, _, _, _, _, _⟩ := execute_stF id agents cfg cancelAt
    obtain ⟨k, _, _, hterm⟩ :=
      runBatches_take agents cfg cancelAt
        (chunkList (effectiveBatchSize cfg) cfg.items) 0 (initialRunState id cfg)
    rw [e1]
    exact hterm

/-- Witness for C7: in the 12-item test run, item 7 rejects with message
`boom7`; its batch of 5 still settles fully and the synthesized failure is
recorded at its position. -/
theorem c7_item_failure_captured_witness :
    (processBatch bagTest cfgTest [5, 6, 7, 8, 9]
        (initialRunState "op1" cfgTest)).status.processedItems =
      (initialRunState "op1" cfgTest).status.processedItems + 5 ∧
    (processBatch bagTest cfgTest [5, 6, 7, 8, 9]
        (initialRunState "op1" cfgTest)).results.get?
        ((initialRunState "op1" cfgTest).results.length + 2) =
      some { success := false, message := none, error := some "boom7", data := some 7 } :=
  ⟨(c7_item_failure_captured bagTest cfgTest (initialRunState "op1" cfgTest)
      [5, 6, 7, 8, 9] 2 7 "boom7" (by decide) (by decide)).1,
   (c7_item_failure_captured bagTest cfgTest (initialRunState "op1" cfgTest)
      [5, 6, 7, 8, 9] 2 7 "boom7" (by decide) (by decide)).2.2.1⟩

lemma mlookup_eq_none_of_not_mem {β : Type} :
    ∀ (l : List (String × β)) (key : String),
    key ∉ l.map Prod.fst → mlookup l key = none := by
  intro l
  induction l with
  | nil => intro key _; rfl
  | cons p rest ih =>
    intro key hk
    rw [mlookup]
    simp at hk
    rw [if_neg ?_]
    · exact ih key (by simp [hk.2])
    · intro h
      exact hk.1 h.symm

lemma map_fst_filter_subset {β : Type} (p : String × β → Bool) :
    ∀ (l : List (String × β)) (k : String),
    k ∈ (l.filter p).map Prod.fst → k ∈ l.map Prod.fst := by
  intro l k hk
  simp only [List.mem_map] at hk ⊢
  obtain ⟨x, hx, hfx⟩ := hk
  exact ⟨x, List.mem_of_mem_filter hx, hfx⟩

/-- Cancellation request return value against the lifecycle of
`executeBulkOperation` (terminal runs are removed from `activeOperations`
as soon as they settle): the call returns `false` exactly when the id is
unknown or its operation is already terminal. -/
lemma cancelOperation_false_iff :
    ∀ (allOps : List (String × BulkOperationStatus)) (id : String),
    (allOps.map Prod.fst).Nodup →
    (BulkOperationManager.cancelOperation (activeAfterSettle allOps) id = false ↔
      ∀ s, (id, s) ∈ allOps → isCompleted s = true) := by
  intro allOps
  induction allOps with
  | nil =>
    intro id _
    simp [BulkOperationManager.cancelOperation, activeAfterSettle, mlookup]
  | cons p rest ih =>
    intro id hnd
    obtain ⟨k0, s0⟩ := p
    simp only [List.map_cons, List.nodup_cons] at hnd
    obtain ⟨hk0, hndr⟩ := hnd
    by_cases hk : k0 = id
    · subst hk
      cases hc : isCompleted s0 with
      | true =>
        have hact : activeAfterSettle ((k0, s0) :: rest) = activeAfterSettle rest := by
          simp [activeAfterSettle, hc]
        have hnone : mlookup (activeAfterSettle rest) k0 = none := by
          apply mlookup_eq_none_of_not_mem
          intro hmem
          exact hk0 (map_fst_filter_subset _ rest k0 hmem)
        constructor
        · intro _ s hs
          rcases List.mem_cons.mp hs with hs | hs
          · cases hs
            exact hc
          · exfalso
            exact hk0 (List.mem_map.mpr ⟨(k0, s), hs, rfl⟩)
        · intro _
          rw [hact, BulkOperationManager.cancelOperation, hnone]
          rfl
      | false =>
        have hact : activeAfterSettle ((k0, s0) :: rest) =
            (k0, s0) :: activeAfterSettle rest := by
          simp [activeAfterSettle, hc]
        constructor
        · intro hfalse
          exfalso
          rw [hact, BulkOperationManager.cancelOperation, mlookup, if_pos rfl] at hfalse
          exact Bool.noConfusion hfalse
        · intro hall
          exfalso
          have := hall s0 (List.mem_cons_self _ _)
          rw [hc] at this
          exact Bool.noConfusion this
    · have hml : mlookup (activeAfterSettle ((k0, s0) :: rest)) id =
          mlookup (activeAfterSettle rest) id := by
        cases hc : isCompleted s0 with
        | true => simp [activeAfterSettle, hc]
        | false =>
          have hact : activeAfterSettle ((k0, s0) :: rest) =
              (k0, s0) :: activeAfterSettle rest := by
            simp [activeAfterSettle, hc]
          rw [hact, mlookup, if_neg hk]
      have hmem : ∀ s, ((id, s) ∈ (k0, s0) :: rest ↔ (id, s) ∈ rest) := by
        intro s
        constructor
        · intro hs
          rcases List.mem_cons.mp hs with hs | hs
          · exfalso
            cases hs
            exact hk rfl
          · exact hs
        · intro hs
          exact List.mem_cons_of_mem _ hs
      rw [BulkOperationManager.cancelOperation, hml]
      rw [show ((mlookup (activeAfterSettle rest) id).isSome = false ↔
          ∀ s, (id, s) ∈ rest → isCompleted s = true) from ih id hndr]
      constructor
      · intro hall s hs
        exact hall s ((hmem s).mp hs)
      · intro hall s hs
        exact hall s ((hmem s).mpr hs)

/-- C6: cancellation is cooperative and sampled at batch boundaries: when
the cancel flag is first observed at boundary `k+1` (i.e. `cancel()` was
called while batch `k` was in flight), batch `k` still runs to completion
and is counted, batch `k+1` never starts, and the run ends `cancelled`;
and `cancelOperation` returns `false` exactly when the id is unknown or
the operation is already terminal (settled runs having been removed from
`activeOperations`), `true` otherwise. -/
theorem c6_cooperative_cancellation :
    (∀ (ι : Type) (agents : String → Option (BulkAgent ι))
      (cfg : BulkOperationConfig ι) (id : String) (k : Nat),
      k < (chunkList (effectiveBatchSize cfg) cfg.items).length →
      (BulkOperation.execute id agents cfg (some (k + 1))).dispatchLog =
        (chunkList (effectiveBatchSize cfg) cfg.items).take (k + 1) ∧
      (BulkOperation.execute id agents cfg (some (k + 1))).finalStatus.status =
        RunState.cancelled ∧
      (BulkOperation.execute id agents cfg (some (k + 1))).finalStatus.processedItems =
        (((chunkList (effectiveBatchSize cfg) cfg.items).take (k + 1)).map
          List.length).sum) ∧
    (∀ (allOps : List (String × BulkOperationStatus)) (id : String),
      (allOps.map Prod.fst).Nodup →
      (BulkOperationManager.cancelOperation (activeAfterSettle allOps) id = false ↔
        ∀ s, (id, s) ∈ allOps → isCompleted s = true)) := by
  constructor
  · intro ι agents cfg id k hk
    obtain ⟨e1, _, e3, _, _, _⟩ := execute_stF id agents cfg (some (k + 1))
    obtain ⟨r1, r2, r3⟩ :=
      runBatches_cancel agents cfg (chunkList (effectiveBatchSize cfg) cfg.items)
        0 (k + 1) (initialRunState id cfg) (by omega) (by omega)
    simp only [Nat.sub_zero] at r1 r3
    refine ⟨?_, ?_, ?_⟩
    · rw [e3, r1]
      rfl
    · rw [e1, r2]
    · rw [e1, r3]
      have h0 : (initialRunState id cfg).status.processedItems = 0 := rfl
      omega
  · exact cancelOperation_false_iff

/-- Witness for C6: cancelling the 12-item test run during batch 0 lets
batch 0 finish, prevents batches 1 and 2, and ends `cancelled`; a live
(running) operation is cancellable, and a completed one is not. -/
theorem c6_cooperative_cancellation_witness :
    (BulkOperation.execute "op1" bagTest cfgTest (some 1)).dispatchLog =
      (chunkList 5 cfgTest.items).take 1 ∧
    (BulkOperation.execute "op1" bagTest cfgTest (some 1)).finalStatus.status =
      RunState.cancelled ∧
    (BulkOperationManager.cancelOperation
        (activeAfterSettle [("op1", initialRunState "op1" cfgTest |>.status)]) "op1" =
        false ↔
      ∀ s, ("op1", s) ∈ [("op1", initialRunState "op1" cfgTest |>.status)] →
        isCompleted s = true) :=
  ⟨((c6_cooperative_cancellation.1 Nat bagTest cfgTest "op1" 0 (by decide)).1),
   ((c6_cooperative_cancellation.1 Nat bagTest cfgTest "op1" 0 (by decide)).2.1),
   (c6_cooperative_cancellation.2 [("op1", initialRunState "op1" cfgTest |>.status)]
     "op1" (by decide))⟩

/-! ### Agent factory lemmas -/

lemma mlookup_mset_self {β : Type} (k : String) (v : β) :
    ∀ l, mlookup (mset k v l) k = some v := by
  intro l
  induction l with
  | nil => simp [mset, mlookup]
  | cons p rest ih =>
    obtain ⟨k2, w⟩ := p
    by_cases hk : k2 = k
    · simp [mset, hk, mlookup]
    · simp [mset, hk, mlookup, ih]

lemma mlookup_mset_ne {β : Type} (k : String) (v : β) (key : String) (h : k ≠ key) :
    ∀ l, mlookup (mset k v l) key = mlookup l key := by
  intro l
  induction l with
  | nil => simp [mset, mlookup, h]
  | cons p rest ih =>
    obtain ⟨k2, w⟩ := p
    by_cases hk : k2 = k
    · subst hk
      simp [mset, mlookup, h]
    · simp [mset, hk, mlookup, ih]

lemma createAgent_some :
    ∀ (st : FactoryState) (t : AgentType) (r : AgentInstance) (st2 : FactoryState),
    createAgent st t = some (r, st2) →
    r.ready = true ∧ r.instId = st.nextId ∧ r.hasDestroy = true ∧
      st2 = { st with nextId := st.nextId + 1 } := by
  intro st t r st2 h
  cases t <;> simp only [createAgent, mkInstance] at h <;>
    first
      | (split at h
         · injection h with h2
           injection h2 with h3 h4
           subst h3
           subst h4
           exact ⟨rfl, rfl, rfl, rfl⟩
         · exact Option.noConfusion h)
      | (injection h with h2
         injection h2 with h3 h4
         subst h3
         subst h4
         exact ⟨rfl, rfl, rfl, rfl⟩)

lemma createAgent_none_toMock :
    ∀ (st : FactoryState) (t : AgentType), createAgent st t = none →
    ∃ mt, toMock t = some mt := by
  intro st t h
  cases t with
  | seo => exact ⟨.mockSeo, rfl⟩
  | navigation => exact ⟨.mockNavigation, rfl⟩
  | catalog => exact ⟨.mockCatalog, rfl⟩
  | mockSeo => exact Option.noConfusion h
  | mockNavigation => exact Option.noConfusion h
  | mockCatalog => exact Option.noConfusion h

lemma createAgent_mock_of_toMock :
    ∀ (st : FactoryState) (t mt : AgentType), toMock t = some mt →
    ∃ inst st2, createAgent st mt = some (inst, st2) := by
  intro st t mt hmt
  cases t <;> simp only [toMock] at hmt <;> first
    | (injection hmt with h; subst h; exact ⟨_, _, rfl⟩)
    | exact Option.noConfusion hmt

lemma createAgent_none_congr :
    ∀ (st st' : FactoryState) (t : AgentType),
    st'.pageType = st.pageType → st'.hostSquare = st.hostSquare →
    createAgent st t = none → createAgent st' t = none := by
  intro st st' t hpt hhs h
  cases t <;> simp only [createAgent, mkInstance] at h ⊢ <;>
    first
      | (rw [hpt]
         split at h
         · exact Option.noConfusion h
         · simp_all)
      | (rw [hpt, hhs]
         split at h
         · exact Option.noConfusion h
         · simp_all)
      | exact Option.noConfusion h

lemma cacheKey_ne_mock :
    ∀ (t mt : AgentType) (pt : PageType), toMock t = some mt →
    ¬ (cacheKey t pt = cacheKey mt pt) := by
  decide

lemma getAgent_hit {st : FactoryState} {t : AgentType} {c : AgentInstance}
    (h : cacheProbe st t = some c) : getAgent st t = (some c, st) := by
  simp [getAgent, h]

lemma getAgent_create {st : FactoryState} {t : AgentType} {inst : AgentInstance}
    {st2 : FactoryState} (h1 : cacheProbe st t = none)
    (h2 : createAgent st t = some (inst, st2)) :
    getAgent st t =
      (some inst, { st2 with agents := mset (cacheKey t st.pageType) inst st2.agents }) := by
  simp [getAgent, h1, h2]

lemma getAgent_fallback {st : FactoryState} {t mt : AgentType}
    (h1 : cacheProbe st t = none) (h2 : createAgent st t = none)
    (h3 : toMock t = some mt) : getAgent st t = getAgentMock st mt := by
  simp [getAgent, h1, h2, h3]

lemma getAgentMock_hit {st : FactoryState} {t : AgentType} {c : AgentInstance}
    (h : cacheProbe st t = some c) : getAgentMock st t = (some c, st) := by
  simp [getAgentMock, h]

lemma getAgentMock_create {st : FactoryState} {t : AgentType} {inst : AgentInstance}
    {st2 : FactoryState} (h1 : cacheProbe st t = none)
    (h2 : createAgent st t = some (inst, st2)) :
    getAgentMock st t =
      (some inst, { st2 with agents := mset (cacheKey t st.pageType) inst st2.agents }) := by
  simp [getAgentMock, h1, h2]


lemma getAgent_create_cachedState {st : FactoryState} {t : AgentType}
    {inst : AgentInstance} {st2 : FactoryState} (h1 : cacheProbe st t = none)
    (h2 : createAgent st t = some (inst, st2))
    (h3 : st2 = { st with nextId := st.nextId + 1 }) :
    getAgent st t = (some inst, cachedState st t inst) := by
  rw [getAgent_create h1 h2, h3]
  rfl

lemma getAgentMock_create_cachedState {st : FactoryState} {t : AgentType}
    {inst : AgentInstance} {st2 : FactoryState} (h1 : cacheProbe st t = none)
    (h2 : createAgent st t = some (inst, st2))
    (h3 : st2 = { st with nextId := st.nextId + 1 }) :
    getAgentMock st t = (some inst, cachedState st t inst) := by
  rw [getAgentMock_create h1 h2, h3]
  rfl

lemma cachedState_probe_self {st : FactoryState} {t : AgentType}
    {inst : AgentInstance} (h : inst.ready = true) :
    cacheProbe (cachedState st t inst) t = some inst := by
  simp [cacheProbe, cachedState, mlookup_mset_self, h]

lemma cachedState_probe_ne {st : FactoryState} {t t2 : AgentType}
    {inst : AgentInstance} (h : ¬ (cacheKey t2 st.pageType = cacheKey t st.pageType)) :
    cacheProbe (cachedState st t inst) t2 = cacheProbe st t2 := by
  have hne : cacheKey t st.pageType ≠ cacheKey t2 st.pageType := fun hh => h hh.symm
  simp [cacheProbe, cachedState, mlookup_mset_ne _ _ _ hne]

/-- Repeated resolution with an unchanged page-context type returns the
identical cached instance and leaves the factory state unchanged. -/
lemma getAgent_stable (st : FactoryState) (t : AgentType) :
    getAgent (getAgent st t).2 t = getAgent st t := by
  cases hcp : cacheProbe st t with
  | some c =>
    rw [getAgent_hit hcp]
    exact getAgent_hit hcp
  | none =>
    cases hca : createAgent st t with
    | some pr =>
      obtain ⟨inst, st2⟩ := pr
      obtain ⟨hready, hid, _, hst2⟩ := createAgent_some st t inst st2 hca
      rw [getAgent_create_cachedState hcp hca hst2]
      exact getAgent_hit (cachedState_probe_self hready)
    | none =>
      obtain ⟨mt, hmt⟩ := createAgent_none_toMock st t hca
      rw [getAgent_fallback hcp hca hmt]
      cases hcp2 : cacheProbe st mt with
      | some c =>
        rw [getAgentMock_hit hcp2]
        rw [getAgent_fallback hcp hca hmt, getAgentMock_hit hcp2]
      | none =>
        obtain ⟨inst, st2, hcm⟩ := createAgent_mock_of_toMock st t mt hmt
        obtain ⟨hready, hid, _, hst2⟩ := createAgent_some st mt inst st2 hcm
        rw [getAgentMock_create_cachedState hcp2 hcm hst2]
        have hkey := cacheKey_ne_mock t mt st.pageType hmt
        have hcpt : cacheProbe (cachedState st mt inst) t = none :=
          (cachedState_probe_ne hkey).trans hcp
        have hcat : createAgent (cachedState st mt inst) t = none :=
          createAgent_none_congr st _ t rfl rfl hca
        rw [getAgent_fallback hcpt hcat hmt,
          getAgentMock_hit (cachedState_probe_self hready)]

/-- The `key.includes(newPageType)` test of `updateContext` coincides, on
the closed page-type vocabulary, with equality of the key's page type and
the new page type. -/
lemma strIncludes_cacheKey :
    ∀ (t : AgentType) (pt npt : PageType),
    strIncludes (cacheKey t pt) npt.str = (pt == npt) := by
  decide

lemma updateContext_spec (st : FactoryState) (npt : PageType) (t : AgentType)
    (pt : PageType) (a : AgentInstance) (hmem : (cacheKey t pt, a) ∈ st.agents) :
    (pt = npt → (cacheKey t pt, a) ∈ (updateContext st npt).agents) ∧
    (pt ≠ npt →
      (∀ a2 : AgentInstance, (cacheKey t pt, a2) ∉ (updateContext st npt).agents) ∧
      (a.hasDestroy = true → a.instId ∈ (updateContext st npt).destroyed)) := by
  constructor
  · intro hpt
    subst hpt
    refine List.mem_filter.mpr ⟨hmem, ?_⟩
    rw [strIncludes_cacheKey]
    simp
  · intro hne
    constructor
    · intro a2 hmem2
      have hp := (List.mem_filter.mp hmem2).2
      rw [strIncludes_cacheKey] at hp
      exact hne (by simpa using hp)
    · intro hd
      show a.instId ∈ st.destroyed ++ _
      rw [List.mem_append]
      right
      refine List.mem_map.mpr ⟨(cacheKey t pt, a), ?_, rfl⟩
      refine List.mem_filter.mpr ⟨List.mem_filter.mpr ⟨hmem, ?_⟩, hd⟩
      rw [strIncludes_cacheKey]
      simp [hne]

lemma getAgent_fresh (st : FactoryState) (t : AgentType)
    (h1 : mlookup st.agents (cacheKey t st.pageType) = none)
    (h2 : ∀ mt, toMock t = some mt → mlookup st.agents (cacheKey mt st.pageType) = none) :
    ∀ (a : AgentInstance) (st2 : FactoryState), getAgent st t = (some a, st2) →
      a.instId = st.nextId ∧ st2.nextId = st.nextId + 1 := by
  have hcp : cacheProbe st t = none := by simp [cacheProbe, h1]
  cases hca : createAgent st t with
  | some pr =>
    obtain ⟨inst, stc⟩ := pr
    obtain ⟨_, hid, _, hstc⟩ := createAgent_some st t inst stc hca
    intro a st2 hga
    rw [getAgent_create_cachedState hcp hca hstc] at hga
    injection hga with ha hs
    injection ha with ha
    subst ha
    subst hs
    exact ⟨hid, rfl⟩
  | none =>
    obtain ⟨mt, hmt⟩ := createAgent_none_toMock st t hca
    have hcpm : cacheProbe st mt = none := by simp [cacheProbe, h2 mt hmt]
    obtain ⟨inst, stc, hcm⟩ := createAgent_mock_of_toMock st t mt hmt
    obtain ⟨_, hid, _, hstc⟩ := createAgent_some st mt inst stc hcm
    intro a st2 hga
    rw [getAgent_fallback hcp hca hmt,
      getAgentMock_create_cachedState hcpm hcm hstc] at hga
    injection hga with ha hs
    injection ha with ha
    subst ha
    subst hs
    exact ⟨hid, rfl⟩

/-- C8: repeated registry resolution with an unchanged page-context type
returns the identical cached `AgentInstance` and allocates nothing new;
`updateContext` destroys (when a `destroy` is present) and evicts exactly
the cache entries whose key carries a different page type, leaves entries
of the new page type untouched; and a resolution that finds no cached
entry (as after such an eviction) creates a fresh instance. -/
theorem c8_registry_cache_lifecycle :
    (∀ (st : FactoryState) (t : AgentType),
      getAgent (getAgent st t).2 t = getAgent st t) ∧
    (∀ (st : FactoryState) (npt : PageType) (t : AgentType) (pt : PageType)
      (a : AgentInstance), (cacheKey t pt, a) ∈ st.agents →
      (pt = npt → (cacheKey t pt, a) ∈ (updateContext st npt).agents) ∧
      (pt ≠ npt →
        (∀ a2 : AgentInstance, (cacheKey t pt, a2) ∉ (updateContext st npt).agents) ∧
        (a.hasDestroy = true → a.instId ∈ (updateContext st npt).destroyed))) ∧
    (∀ (st : FactoryState) (t : AgentType),
      mlookup st.agents (cacheKey t st.pageType) = none →
      (∀ mt, toMock t = some mt →
        mlookup st.agents (cacheKey mt st.pageType) = none) →
      ∀ (a : AgentInstance) (st2 : FactoryState), getAgent st t = (some a, st2) →
        a.instId = st.nextId ∧ st2.nextId = st.nextId + 1) :=
  ⟨getAgent_stable, updateContext_spec, getAgent_fresh⟩

/-- Witness for C8 at a concrete factory state on the `item-detail` page:
resolving the seo agent twice returns the identical cached instance, a
page change to `dashboard` destroys the cached instance (id 0), and a
fresh resolution from an empty cache allocates id 0 and advances the
counter. -/
theorem c8_registry_cache_lifecycle_witness :
    getAgent (getAgent stTest .seo).2 .seo = getAgent stTest .seo ∧
    (⟨AgentType.seo, true, 0, seoCaps, true, true⟩ : AgentInstance).instId ∈
      (updateContext (getAgent stTest AgentType.seo).2 PageType.dashboard).destroyed ∧
    (⟨AgentType.seo, true, 0, seoCaps, true, true⟩ : AgentInstance).instId =
        stTest.nextId ∧
      (getAgent stTest AgentType.seo).2.nextId = stTest.nextId + 1 :=
  ⟨c8_registry_cache_lifecycle.1 stTest .seo,
   ((c8_registry_cache_lifecycle.2.1 (getAgent stTest AgentType.seo).2
      PageType.dashboard AgentType.seo PageType.itemDetail
      ⟨AgentType.seo, true, 0, seoCaps, true, true⟩ (by decide)).2
      (by decide)).2 (by decide),
   c8_registry_cache_lifecycle.2.2 stTest AgentType.seo (by decide)
     (fun mt hmt => by
       simp only [toMock] at hmt
       injection hmt with h
       subst h
       decide)
     ⟨AgentType.seo, true, 0, seoCaps, true, true⟩
     (getAgent stTest AgentType.seo).2 (by decide)⟩
